import Mathlib

set_option maxRecDepth 1000000

/-!
Verification of the Toshy configuration generation and validation pipeline
(`toshy/config_generator.py`).

The Python code is shallowly embedded as executable Lean definitions:

* Python strings are Lean `String`; `str.replace`, `str.startswith`,
  `str.endswith` and `str.lower` are re-implemented on `List Char`
  (`pyReplaceC`, `pyStartsWith`, ...) with exactly the Python semantics
  (replace rewrites all non-overlapping occurrences left to right; lower is
  ASCII lower-casing, which agrees with Python on the ASCII inputs considered
  here).
* Python dicts keep insertion order (CPython 3.7+), so the `applications` and
  `globalShortcuts` mappings are embedded as association lists.
* The options bundle is embedded as a structure holding exactly the paths the
  generator reads (`logging.level`, `performance.priority`,
  `security.restrictedMode`, `keybindings.*`), each `Option`-valued where the
  code distinguishes present from absent.  Python truthiness of
  `performance.get('priority')` (an int in the NixOS module) is the test
  `p != 0`; truthiness of `security.get('restrictedMode')` (a bool) is
  `= some true`.
* The only effects are prints and file IO; they are made explicit
  (`validate_config` returns its Bool together with the printed lines, the
  CLI driver `mainRun` takes the file system as function arguments and
  returns the exit code, the printed lines and the written document).
* The downstream compiler invoked by `validate_config` (the builtin
  `compile(text, '<generated_config>', 'exec')`) is external to the
  repository; `validate_config` is therefore parameterized by the outcome of
  that call, and a concrete spec-modelled checker `pyCompile` is provided for
  the claims that run the whole pipeline (see its doc comment).
-/

/-! ## Characters used in escape-sensitive positions -/

/-- The double-quote character. -/
def qD : Char := Char.ofNat 34

/-- The single-quote character. -/
def qS : Char := Char.ofNat 39

/-- The newline character. -/
def cNl : Char := Char.ofNat 10

/-- The backslash character. -/
def cBs : Char := Char.ofNat 92

/-- The hash character. -/
def cHash : Char := Char.ofNat 35

/-! ## Python string primitives on `List Char` -/

/-- Fuel-indexed worker for `pyReplaceC`.  The fuel always dominates the
length of the remaining text (each step consumes at least one character),
so the wrapper below never reaches the out-of-fuel case; the fuel only
makes the recursion structural. -/
def pyReplaceFuel (pat repl : List Char) : Nat → List Char → List Char
  | 0, s => s
  | _, [] => []
  | fuel + 1, c :: rest =>
    if pat ≠ [] ∧ pat.isPrefixOf (c :: rest) then
      repl ++ pyReplaceFuel pat repl fuel ((c :: rest).drop pat.length)
    else
      c :: pyReplaceFuel pat repl fuel rest

/-- Embedding of Python `str.replace` on character lists: rewrite every
non-overlapping occurrence of `pat` by `repl`, scanning left to right.
(The generator only ever calls `replace` with non-empty patterns; for an
empty pattern this embedding is the identity.) -/
def pyReplaceC (pat repl s : List Char) : List Char :=
  pyReplaceFuel pat repl s.length s

/-- Whether `pat` occurs as a contiguous substring of `s`. -/
def occursInC (pat : List Char) : List Char → Bool
  | [] => pat.isEmpty
  | c :: rest => pat.isPrefixOf (c :: rest) || occursInC pat rest

/-- Embedding of Python `str.replace` on `String`. -/
def pyReplace (s pat repl : String) : String :=
  ⟨pyReplaceC pat.data repl.data s.data⟩

/-- Embedding of Python `str.startswith`. -/
def pyStartsWith (s pat : String) : Bool :=
  pat.data.isPrefixOf s.data

/-- Embedding of Python `str.endswith`. -/
def pyEndsWith (s pat : String) : Bool :=
  pat.data.reverse.isPrefixOf s.data.reverse

/-- Embedding of Python `str.lower` (ASCII lower-casing; agrees with Python
on ASCII strings, which is all the pipeline claims quantify over). -/
def lowerStr (s : String) : String :=
  ⟨s.data.map Char.toLower⟩

/-- ASCII alphanumeric character (`Char.isAlpha`/`Char.isDigit` are the
ASCII ranges). -/
def isAlnumChar (c : Char) : Bool :=
  c.isAlpha || c.isDigit

/-- A character that may appear inside a single-line string literal of
either quote kind: not a quote, not a newline, not a backslash. -/
def strPlain (c : Char) : Bool :=
  !(c = qD || c = qS || c = cNl || c = cBs)

/-- Embedding of Python `sep.join(lines)`. -/
def pyJoin (sep : String) : List String → String
  | [] => ""
  | [l] => l
  | l :: ls => l ++ sep ++ pyJoin sep ls

/-- The string `s` contains `sub` as a contiguous substring. -/
def containsSubstr (s sub : String) : Prop :=
  ∃ a b : String, s = a ++ sub ++ b

/-! ## The options bundle (section 3 of the spec) -/

/-- Embedding of the `keybindings` sub-dictionary, with the defaults the
generator applies already folded in: `macStyle` defaults to `False`,
`applications` and `globalShortcuts` default to the empty (insertion-ordered)
dict, embedded as association lists. -/
structure KeybindingsOpts where
  macStyle : Bool
  applications : List (String × List (String × String))
  globalShortcuts : List (String × String)

/-- Embedding of the options bundle: exactly the paths
`ToshyConfigGenerator` reads.  A `none` field means the corresponding key
path is absent from the JSON options. -/
structure Options where
  logging_level : Option String
  performance_priority : Option Int
  security_restrictedMode : Option Bool
  keybindings : Option KeybindingsOpts

/-! ## ToshyConfigGenerator -/

/-- Embedding of `ToshyConfigGenerator.generate_base_config`, as the list of
lines the Python code accumulates in `config` before joining.  Note that the
`LOG_LEVEL` line is appended unconditionally (with default `INFO`), while the
priority and restricted-mode lines are guarded by Python truthiness of the
retrieved values. -/
def generate_base_config_lines (options : Options) : List String :=
  let log_level := options.logging_level.getD "INFO"
  ["# Base configuration",
   "TOSHY_CONFIG_VERSION = \x27" ++ "1.0" ++ "\x27",
   "LOG_LEVEL = \x27" ++ log_level ++ "\x27"]
  ++ (match options.performance_priority with
      | some p => if p ≠ 0 then ["PROCESS_PRIORITY = " ++ toString p] else []
      | none => [])
  ++ (match options.security_restrictedMode with
      | some true => ["RESTRICTED_MODE = True"]
      | _ => [])

/-- Embedding of `ToshyConfigGenerator.generate_base_config` (the
`'\n'.join(config)` of the accumulated lines). -/
def generate_base_config (options : Options) : String :=
  pyJoin "\n" (generate_base_config_lines options)

/-- The disabled marker returned by `generate_mac_style_config(False)`. -/
def macStyleDisabledStr : String := "# Mac-style keybindings disabled"

/-- The fixed Mac-style chord table returned by
`generate_mac_style_config(True)` (the literal `config` string of the
source, transcribed verbatim). -/
def macStyleEnabledStr : String :=
  "\n# Mac-style keybindings configuration\nMAC_STYLE_ENABLED = True\n\n# Define the main keymap for Mac-style shortcuts\nkeymap(\"Mac-style Global\", \x7b\n    # Text editing shortcuts\n    C(\"a\"):         C(\"ctrl-a\"),        # Select all\n    C(\"c\"):         C(\"ctrl-c\"),        # Copy\n    C(\"v\"):         C(\"ctrl-v\"),        # Paste\n    C(\"x\"):         C(\"ctrl-x\"),        # Cut\n    C(\"z\"):         C(\"ctrl-z\"),        # Undo\n    C(\"shift-z\"):   C(\"ctrl-y\"),        # Redo\n    C(\"s\"):         C(\"ctrl-s\"),        # Save\n    C(\"o\"):         C(\"ctrl-o\"),        # Open\n    C(\"n\"):         C(\"ctrl-n\"),        # New\n    C(\"p\"):         C(\"ctrl-p\"),        # Print\n    C(\"f\"):         C(\"ctrl-f\"),        # Find\n    C(\"g\"):         C(\"ctrl-g\"),        # Find next\n    C(\"shift-g\"):   C(\"ctrl-shift-g\"),  # Find previous\n    C(\"h\"):         C(\"ctrl-h\"),        # Replace\n    \n    # Navigation shortcuts\n    C(\"left\"):      C(\"home\"),          # Beginning of line\n    C(\"right\"):     C(\"end\"),           # End of line\n    C(\"up\"):        C(\"ctrl-home\"),     # Beginning of document\n    C(\"down\"):      C(\"ctrl-end\"),      # End of document\n    C(\"shift-left\"): C(\"shift-home\"),   # Select to beginning of line\n    C(\"shift-right\"): C(\"shift-end\"),   # Select to end of line\n    C(\"shift-up\"):  C(\"ctrl-shift-home\"), # Select to beginning\n    C(\"shift-down\"): C(\"ctrl-shift-end\"), # Select to end\n    \n    # Word navigation\n    C(\"alt-left\"):  C(\"ctrl-left\"),     # Previous word\n    C(\"alt-right\"): C(\"ctrl-right\"),    # Next word\n    C(\"alt-shift-left\"): C(\"ctrl-shift-left\"),   # Select previous word\n    C(\"alt-shift-right\"): C(\"ctrl-shift-right\"), # Select next word\n    \n    # Window and tab management\n    C(\"w\"):         C(\"ctrl-w\"),        # Close window/tab\n    C(\"shift-w\"):   C(\"ctrl-shift-w\"),  # Close window\n    C(\"t\"):         C(\"ctrl-t\"),        # New tab\n    C(\"shift-t\"):   C(\"ctrl-shift-t\"),  # Reopen closed tab\n    C(\"tab\"):       C(\"ctrl-tab\"),      # Next tab\n    C(\"shift-tab\"): C(\"ctrl-shift-tab\"), # Previous tab\n    C(\"1\"):         C(\"ctrl-1\"),        # Switch to tab 1\n    C(\"2\"):         C(\"ctrl-2\"),        # Switch to tab 2\n    C(\"3\"):         C(\"ctrl-3\"),        # Switch to tab 3\n    C(\"4\"):         C(\"ctrl-4\"),        # Switch to tab 4\n    C(\"5\"):         C(\"ctrl-5\"),        # Switch to tab 5\n    C(\"6\"):         C(\"ctrl-6\"),        # Switch to tab 6\n    C(\"7\"):         C(\"ctrl-7\"),        # Switch to tab 7\n    C(\"8\"):         C(\"ctrl-8\"),        # Switch to tab 8\n    C(\"9\"):         C(\"ctrl-9\"),        # Switch to tab 9\n    \n    # Application shortcuts\n    C(\"q\"):         C(\"alt-f4\"),        # Quit application\n    C(\"m\"):         C(\"alt-f9\"),        # Minimize window\n    C(\"shift-m\"):   C(\"alt-f10\"),       # Maximize window\n    \n    # System shortcuts\n    C(\"space\"):     C(\"alt-f2\"),        # Application launcher\n    C(\"shift-space\"): C(\"alt-f1\"),      # System menu\n\x7d)\n"

/-- Embedding of `ToshyConfigGenerator.generate_mac_style_config`. -/
def generate_mac_style_config (enable_mac_style : Bool) : String :=
  if !enable_mac_style then macStyleDisabledStr
  else macStyleEnabledStr

/-- Embedding of `ToshyConfigGenerator._format_key_binding`. -/
def format_key_binding (key_binding : String) : String :=
  let kb1 := pyReplace (pyReplace key_binding "Cmd+" "C(\"") "Ctrl+" "C(\""
  let kb2 := pyReplace (pyReplace kb1 "Alt+" "A(\"") "Shift+" "shift-"
  if pyStartsWith kb2 "C(\"" && !(pyEndsWith kb2 "\")") then
    kb2 ++ "\")"
  else if pyStartsWith kb2 "A(\"" && !(pyEndsWith kb2 "\")") then
    kb2 ++ "\")"
  else if !(pyStartsWith kb2 "C(\"" || pyStartsWith kb2 "A(\"") then
    "K(\"" ++ lowerStr kb2 ++ "\")"
  else
    kb2

/-- One emitted binding line `    {mac_formatted}: {linux_formatted},` of the
application and global-shortcut generators. -/
def bindingLine (mac_key linux_key : String) : String :=
  "    " ++ format_key_binding mac_key ++ ": " ++ format_key_binding linux_key ++ ","

/-- The lines appended for one `(app_name, bindings)` entry of the
applications dict. -/
def appBlockLines (app : String × List (String × String)) : List String :=
  ["\n# Configuration for " ++ app.1,
   "keymap(\"" ++ app.1 ++ "\", \x7b"]
  ++ app.2.map (fun b => bindingLine b.1 b.2)
  ++ ["\x7d)"]

/-- The line list accumulated by
`ToshyConfigGenerator.generate_application_configs` for a non-empty
applications dict. -/
def generate_application_configs_lines
    (applications : List (String × List (String × String))) : List String :=
  "# Application-specific keybinding configurations"
    :: applications.flatMap appBlockLines

/-- Embedding of `ToshyConfigGenerator.generate_application_configs`. -/
def generate_application_configs
    (applications : List (String × List (String × String))) : String :=
  if applications.isEmpty then "# No application-specific configurations"
  else pyJoin "\n" (generate_application_configs_lines applications)

/-- The line list accumulated by
`ToshyConfigGenerator.generate_global_shortcuts` for a non-empty shortcuts
dict. -/
def generate_global_shortcuts_lines (shortcuts : List (String × String)) :
    List String :=
  ["# Global system shortcuts",
   "keymap(\"Global System\", \x7b"]
  ++ shortcuts.map (fun b => bindingLine b.1 b.2)
  ++ ["\x7d)"]

/-- Embedding of `ToshyConfigGenerator.generate_global_shortcuts`. -/
def generate_global_shortcuts (shortcuts : List (String × String)) : String :=
  if shortcuts.isEmpty then "# No global shortcuts configured"
  else pyJoin "\n" (generate_global_shortcuts_lines shortcuts)

/-- The fixed template text before the `generation_time` slot (the
`config_template` literal with `format` brace escapes resolved). -/
def tplHead : String :=
  "#!/usr/bin/env python3\n# -*- coding: utf-8 -*-\n\"\"\"\nToshy Configuration - Generated by NixOS\nThis file is automatically generated. Manual changes will be overwritten.\n\"\"\"\n\nimport os\nimport sys\nfrom pathlib import Path\n\n# Import the keymapper API\ntry:\n    from xwaykeyz.models import *\n    from xwaykeyz import *\nexcept ImportError:\n    print(\"Error: xwaykeyz not found. Please ensure it is installed.\")\n    sys.exit(1)\n\n# Configuration metadata\nGENERATED_BY = \"NixOS Toshy Module\"\nGENERATION_TIME = \""

/-- The template text between the `generation_time` slot and the
`base_config` slot: the closing quote and a blank line. -/
def tplAfterTime : String := "\"\n\n"

/-- The blank-line separator between consecutive section slots of the
template. -/
def tplSep : String := "\n\n"

/-- The fixed template text after the `custom_config` slot (the validation
trailer, with `format` brace escapes resolved). -/
def tplTail : String :=
  "\n\n# Configuration validation\nif __name__ == \"__main__\":\n    print(f\"Toshy configuration loaded successfully\")\n    print(f\"Generated by: \x7bGENERATED_BY\x7d\")\n    print(f\"Generation time: \x7bGENERATION_TIME\x7d\")\n"

/-- Embedding of `ToshyConfigGenerator.generate_config`.  The
`datetime.datetime.now().isoformat()` timestamp is an external input and is
passed as the `generation_time` argument; the Python default
`custom_config=""` is passed explicitly by callers here. -/
def generate_config (generation_time : String) (options : Options)
    (custom_config : String) : String :=
  let base_config := generate_base_config options
  let keybindings := options.keybindings
  let mac_style_config := generate_mac_style_config
    (match keybindings with | some kb => kb.macStyle | none => false)
  let application_configs := generate_application_configs
    (match keybindings with | some kb => kb.applications | none => [])
  let global_shortcuts := generate_global_shortcuts
    (match keybindings with | some kb => kb.globalShortcuts | none => [])
  tplHead ++ generation_time ++ tplAfterTime
    ++ base_config ++ tplSep
    ++ mac_style_config ++ tplSep
    ++ application_configs ++ tplSep
    ++ global_shortcuts ++ tplSep
    ++ (if custom_config = "" then "# No custom configuration" else custom_config)
    ++ tplTail

/-! ## The downstream compile step and the validator -/

/-- Outcome of the downstream `compile(config_content, '<generated_config>',
'exec')` call: success, a `SyntaxError` carrying a line number and message,
or any other (non-syntax) exception. -/
inductive CompileOutcome where
  | ok
  | syntaxError (lineno : Nat) (msg : String)
  | otherError (msg : String)

/-- Lexer states of the spec-modelled syntax checker `pyCompile`: outside any
string, inside a comment, or inside a single-line or triple-quoted string of
either quote character (`dq1`/`sq1` immediately after the opening quote,
`dq2`/`sq2` after two consecutive quotes, `..Esc` after a backslash). -/
inductive PyLexState where
  | normal | comment
  | dq1 | dq2 | dqIn | dqEsc | dq3 | dq3Esc | dq3q1 | dq3q2
  | sq1 | sq2 | sqIn | sqEsc | sq3 | sq3Esc | sq3q1 | sq3q2
  deriving DecidableEq

open PyLexState in
/-- One step of the string-literal lexer: `none` means a definite syntax
error (a newline inside a single-line string literal). -/
def pyStep (st : PyLexState) (c : Char) : Option PyLexState :=
  match st with
  | normal =>
    if c = qD then some dq1 else if c = qS then some sq1
    else if c = cHash then some comment else some normal
  | comment => if c = cNl then some normal else some comment
  | dq1 =>
    if c = qD then some dq2 else if c = cNl then none
    else if c = cBs then some dqEsc else some dqIn
  | dq2 =>
    if c = qD then some dq3
    else if c = qS then some sq1 else if c = cHash then some comment else some normal
  | dqIn =>
    if c = qD then some normal else if c = cNl then none
    else if c = cBs then some dqEsc else some dqIn
  | dqEsc => some dqIn
  | dq3 => if c = qD then some dq3q1 else if c = cBs then some dq3Esc else some dq3
  | dq3Esc => some dq3
  | dq3q1 => if c = qD then some dq3q2 else if c = cBs then some dq3Esc else some dq3
  | dq3q2 => if c = qD then some normal else if c = cBs then some dq3Esc else some dq3
  | sq1 =>
    if c = qS then some sq2 else if c = cNl then none
    else if c = cBs then some sqEsc else some sqIn
  | sq2 =>
    if c = qS then some sq3
    else if c = qD then some dq1 else if c = cHash then some comment else some normal
  | sqIn =>
    if c = qS then some normal else if c = cNl then none
    else if c = cBs then some sqEsc else some sqIn
  | sqEsc => some sqIn
  | sq3 => if c = qS then some sq3q1 else if c = cBs then some sq3Esc else some sq3
  | sq3Esc => some sq3
  | sq3q1 => if c = qS then some sq3q2 else if c = cBs then some sq3Esc else some sq3
  | sq3q2 => if c = qS then some normal else if c = cBs then some sq3Esc else some sq3

/-- Run the string-literal lexer over a character list. -/
def pyScan (st : PyLexState) : List Char → Option PyLexState
  | [] => some st
  | c :: cs =>
    match pyStep st c with
    | none => none
    | some st' => pyScan st' cs

/-- A final lexer state in which the source is well terminated: outside any
string (possibly inside a trailing comment, or right after an empty string
literal). -/
def pyAcceptState : Option PyLexState → Bool
  | some .normal => true
  | some .comment => true
  | some .dq2 => true
  | some .sq2 => true
  | _ => false

/-- Modelled from the spec: the downstream compile step
(`compile(config_content, '<generated_config>', 'exec')`) is external to this
repository.  Section 4.3 of the spec identifies unescaped string-termination
characters in interpolated values as the one syntax hazard of generated
documents (\"the validator ... is the only safety net\"), so the model checks
exactly the string-literal lexing of the document: every single-line string
literal must be terminated before the end of its line and every string must
be terminated before the end of the document.  A document that fails this
check is rejected by the real compiler as well (unterminated string literal);
the reported line number of the model is nominal (the claims below only
inspect the Boolean outcome). -/
def pyCompile (config_content : String) : CompileOutcome :=
  if pyAcceptState (pyScan .normal config_content.data) then .ok
  else .syntaxError 0 "unterminated string literal"

/-- Modelled from the spec: Python renders a `SyntaxError` exception `e` (as
interpolated by `f"Configuration validation failed: {e}"`) as its message
followed by the file name and the line number, so the printed diagnostic
contains both the line number and the message of the exception. -/
def syntaxErrorStr (lineno : Nat) (msg : String) : String :=
  msg ++ " (<generated_config>, line " ++ toString lineno ++ ")"

/-- Embedding of `ToshyConfigGenerator.validate_config`, parameterized by
the outcome `compileFn` of the downstream compile call on the given text.
`Except.error` is an exception propagating out of `validate_config` (only a
`SyntaxError` is caught); the `ok` result carries the returned Bool and the
printed lines. -/
def validate_config (compileFn : String → CompileOutcome)
    (config_content : String) : Except String (Bool × List String) :=
  match compileFn config_content with
  | .ok => .ok (true, [])
  | .syntaxError n m =>
      .ok (false, ["Configuration validation failed: " ++ syntaxErrorStr n m])
  | .otherError m => .error m

/-! ## The CLI/file driver -/

/-- The parsed command-line arguments of `main` (`--options` and `--output`
are required by argparse; `--custom-config` is optional; `--validate` is a
boolean switch). -/
structure Args where
  options : String
  output : String
  custom_config : Option String
  validate : Bool

/-- Embedding of `main`, parameterized by the outcome of the downstream
compile call (`compileFn`), the file system (`fileExists`/`readFile`), and
whether creating and writing the output file succeeds (`writeOk`).
`jsonParse` models `json.load`: `none` is a load failure (malformed JSON).
The result is an uncaught exception (`Except.error`) or the exit code, the
printed lines, and the written document (if any); exception message texts
are abbreviated. -/
def mainRun (compileFn : String → CompileOutcome)
    (fileExists : String → Bool) (readFile : String → String)
    (jsonParse : String → Option Options) (writeOk : Bool)
    (generation_time : String) (args : Args) :
    Except String (Int × List String × Option String) :=
  if fileExists args.options = false then
    .ok (1, ["Error loading options: [Errno 2] No such file or directory: "
              ++ args.options], none)
  else
    match jsonParse (readFile args.options) with
    | none => .ok (1, ["Error loading options: invalid JSON: " ++ args.options], none)
    | some options =>
      let custom_config :=
        match args.custom_config with
        | some p => if p ≠ "" ∧ fileExists p then readFile p else ""
        | none => ""
      let config_content := generate_config generation_time options custom_config
      if args.validate then
        match validate_config compileFn config_content with
        | .error e => .error e
        | .ok (false, out) => .ok (1, out, none)
        | .ok (true, out) =>
          if writeOk then
            .ok (0, out ++ ["Configuration validation passed",
                            "Configuration generated: " ++ args.output],
                 some config_content)
          else
            .ok (1, out ++ ["Configuration validation passed",
                            "Error writing configuration"], none)
      else
        if writeOk then
          .ok (0, ["Configuration generated: " ++ args.output], some config_content)
        else
          .ok (1, ["Error writing configuration"], none)

/-! ## Chord shapes used to state the repaired round-trip claims -/

/-- The three chord prefixes that the formatter rewrites into a token
opener. -/
inductive Opener where
  | cmd | ctrl | alt
  deriving DecidableEq

/-- The literal prefix text of an opener modifier. -/
def Opener.str : Opener → String
  | .cmd => "Cmd+"
  | .ctrl => "Ctrl+"
  | .alt => "Alt+"

/-- A structured chord: an optional opener modifier, a number of `Shift+`
modifiers, and the final key. -/
structure Chord where
  opener : Option Opener
  shifts : Nat
  key : String

/-- The text `Shift+Shift+...` with `n` repetitions. -/
def shiftReps : Nat → String
  | 0 => ""
  | n + 1 => "Shift+" ++ shiftReps n

/-- The text `shift-shift-...` with `n` repetitions. -/
def shiftLows : Nat → String
  | 0 => ""
  | n + 1 => "shift-" ++ shiftLows n

/-- The chord string denoted by a structured chord. -/
def Chord.render (c : Chord) : String :=
  (match c.opener with | some o => o.str | none => "") ++ shiftReps c.shifts ++ c.key

/-- A non-empty ASCII-alphanumeric string. -/
def AlnumStr (s : String) : Prop :=
  s.data ≠ [] ∧ ∀ ch ∈ s.data, isAlnumChar ch = true

/-- A well-formed structured chord: its key is non-empty alphanumeric. -/
def Chord.Wf (c : Chord) : Prop := AlnumStr c.key

/-- A chord string in canonical modifier order: at most one opener modifier
first, then any number of `Shift+`, then a non-empty alphanumeric key. -/
def WfChordStr (s : String) : Prop :=
  ∃ c : Chord, c.Wf ∧ c.render = s

/-- Both sides of every binding pair are canonical chord strings. -/
def WfBindings (bs : List (String × String)) : Prop :=
  ∀ p ∈ bs, WfChordStr p.1 ∧ WfChordStr p.2

/-- Every application name is non-empty alphanumeric and every binding pair
is canonical. -/
def WfApplications (apps : List (String × List (String × String))) : Prop :=
  ∀ a ∈ apps, AlnumStr a.1 ∧ WfBindings a.2

/-- No index inside `a` starts a (possible) occurrence of `pat`, whatever
text follows `a`: for every strict suffix of `a`, neither is it a prefix of
`pat` nor is `pat` a prefix of it. -/
def noMatchWithin (pat a : List Char) : Bool :=
  (List.range a.length).all fun i =>
    !((a.drop i).isPrefixOf pat) && !(pat.isPrefixOf (a.drop i))

/-- A text line after which the lexer is back outside any string: scanning
the line plus its terminating newline from the `normal` state returns to
`normal`. -/
def LineOk (l : String) : Prop :=
  ∀ t, pyScan .normal (l.data ++ cNl :: t) = pyScan .normal t

/-- Every character of `s` keeps the lexer in the `normal` state. -/
def NormalKeeps (s : String) : Prop :=
  ∀ c ∈ s.data, pyStep .normal c = some .normal

/-- Every character of `s` may sit inside a single-line string literal. -/
def StrPlainAll (s : String) : Prop :=
  ∀ c ∈ s.data, strPlain c = true

/-- The hypotheses of the repaired round-trip property: interpolated scalar
option values contain no quote, newline or backslash characters, and all
chord strings are canonical with alphanumeric names and keys. -/
def WfRoundtripOptions (opts : Options) : Prop :=
  (∀ lvl, opts.logging_level = some lvl → StrPlainAll lvl) ∧
  (∀ p : Int, opts.performance_priority = some p → NormalKeeps (toString p)) ∧
  (∀ kb, opts.keybindings = some kb →
    WfApplications kb.applications ∧ WfBindings kb.globalShortcuts)

/-! # Theorems -/

/-! ## Character facts -/

/-- Converting a valid code point to a character and back is the
identity. -/
theorem char_toNat_ofNat (n : Nat) (h : n.isValidChar) : (Char.ofNat n).toNat = n := by
  simp only [Char.ofNat, h, dif_pos]
  rfl

/-- Characters are equal iff their code points are. -/
theorem char_eq_iff_toNat (a b : Char) : a = b ↔ a.toNat = b.toNat := by
  constructor
  · intro h; rw [h]
  · intro h
    apply Char.ext
    apply UInt32.ext
    exact h

/-- Alphanumeric characters are plain string content. -/
theorem strPlain_of_alnum (c : Char) (h : isAlnumChar c = true) : strPlain c = true := by
  have h34 : c ≠ qD := by rintro rfl; exact absurd h (by decide)
  have h39 : c ≠ qS := by rintro rfl; exact absurd h (by decide)
  have h10 : c ≠ cNl := by rintro rfl; exact absurd h (by decide)
  have h92 : c ≠ cBs := by rintro rfl; exact absurd h (by decide)
  simp [strPlain, h34, h39, h10, h92]

/-- Lower-casing an alphanumeric character yields plain string content. -/
theorem strPlain_toLower (c : Char) (h : isAlnumChar c = true) :
    strPlain (Char.toLower c) = true := by
  show strPlain (if c.toNat ≥ 65 ∧ c.toNat ≤ 90 then Char.ofNat (c.toNat + 32) else c) = true
  split
  · rename_i hif
    have hv : (Char.ofNat (c.toNat + 32)).toNat = c.toNat + 32 :=
      char_toNat_ofNat _ (Or.inl (by omega))
    simp only [strPlain, Bool.not_eq_true']
    simp only [Bool.or_eq_false_iff]
    refine ⟨⟨⟨?_, ?_⟩, ?_⟩, ?_⟩ <;>
      · rw [decide_eq_false_iff_not]
        rw [char_eq_iff_toNat]
        rw [hv]
        simp only [qD, qS, cNl, cBs]
        rw [char_toNat_ofNat _ (by norm_num [Nat.isValidChar])]
        omega
  · exact strPlain_of_alnum c h

/-- Alphanumeric characters are not the plus sign. -/
theorem alnum_ne_plus (c : Char) (h : isAlnumChar c = true) : c ≠ '+' := by
  rintro rfl; exact absurd h (by decide)

/-- Alphanumeric characters keep the lexer in the normal state. -/
theorem pyStep_normal_of_alnum (c : Char) (h : isAlnumChar c = true) :
    pyStep .normal c = some .normal := by
  have h1 : c ≠ qD := by rintro rfl; exact absurd h (by decide)
  have h2 : c ≠ qS := by rintro rfl; exact absurd h (by decide)
  have h3 : c ≠ cHash := by rintro rfl; exact absurd h (by decide)
  simp [pyStep, h1, h2, h3]

/-! ## Facts about the replace primitive -/

/-- The worker result does not depend on the fuel, as long as the fuel
dominates the length of the text. -/
theorem pyReplaceFuel_irrel (pat repl : List Char) :
    ∀ (f1 : Nat) (s : List Char) (f2 : Nat), s.length ≤ f1 → s.length ≤ f2 →
      pyReplaceFuel pat repl f1 s = pyReplaceFuel pat repl f2 s := by
  intro f1
  induction f1 with
  | zero =>
    intro s f2 h1 h2
    have hs : s = [] := List.eq_nil_of_length_eq_zero (Nat.le_zero.mp h1)
    subst hs
    cases f2 <;> simp [pyReplaceFuel]
  | succ f ih =>
    intro s f2 h1 h2
    cases s with
    | nil => cases f2 <;> simp [pyReplaceFuel]
    | cons c rest =>
      cases f2 with
      | zero => simp at h2
      | succ f2x =>
        simp only [pyReplaceFuel]
        by_cases hcond : pat ≠ [] ∧ pat.isPrefixOf (c :: rest)
        · rw [if_pos hcond, if_pos hcond]
          congr 1
          have hp : 0 < pat.length := List.length_pos.mpr hcond.1
          apply ih
          · simp only [List.length_drop, List.length_cons]
            simp only [List.length_cons] at h1
            omega
          · simp only [List.length_drop, List.length_cons]
            simp only [List.length_cons] at h2
            omega
        · rw [if_neg hcond, if_neg hcond]
          congr 1
          apply ih
          · simp only [List.length_cons] at h1
            omega
          · simp only [List.length_cons] at h2
            omega

/-- Replacing in the empty string yields the empty string. -/
theorem pyReplaceC_nil (pat repl : List Char) : pyReplaceC pat repl [] = [] := rfl

/-- When no occurrence of the pattern starts at the head, replacement keeps
the head character. -/
theorem pyReplaceC_cons_neg {pat : List Char} (repl : List Char) {c : Char}
    {rest : List Char} (h : pat.isPrefixOf (c :: rest) = false) :
    pyReplaceC pat repl (c :: rest) = c :: pyReplaceC pat repl rest := by
  unfold pyReplaceC
  simp only [List.length_cons, pyReplaceFuel]
  rw [if_neg]
  intro hcond
  simp [hcond.2] at h

/-- A list is a Boolean prefix of itself followed by anything. -/
theorem isPrefixOf_append_self (a b : List Char) : a.isPrefixOf (a ++ b) = true := by
  rw [List.isPrefixOf_iff_prefix]
  exact List.prefix_append a b

/-- Replacement at an occurrence of the pattern at the head. -/
theorem pyReplaceC_append_match {pat : List Char} (repl : List Char)
    (hne : pat ≠ []) (t : List Char) :
    pyReplaceC pat repl (pat ++ t) = repl ++ pyReplaceC pat repl t := by
  cases pat with
  | nil => exact absurd rfl hne
  | cons p ps =>
    unfold pyReplaceC
    rw [List.cons_append]
    simp only [List.length_cons, pyReplaceFuel]
    rw [if_pos ⟨by simp, by rw [← List.cons_append]; exact isPrefixOf_append_self _ _⟩]
    congr 1
    rw [show List.drop (ps.length + 1) (p :: (ps ++ t)) = t from by
      rw [List.drop_succ_cons]
      exact List.drop_left ps t]
    apply pyReplaceFuel_irrel
    · simp only [List.length_append]
      omega
    · exact Nat.le_refl _

/-- An occurring pattern contributes all its characters to the string. -/
theorem mem_of_occursInC {pat s : List Char} (h : occursInC pat s = true)
    {c : Char} (hc : c ∈ pat) : c ∈ s := by
  induction s with
  | nil =>
    simp [occursInC, List.isEmpty_iff] at h
    subst h
    exact absurd hc (List.not_mem_nil c)
  | cons d rest ih =>
    simp only [occursInC, Bool.or_eq_true] at h
    rcases h with h | h
    · rw [List.isPrefixOf_iff_prefix] at h
      exact h.sublist.subset hc
    · exact List.mem_cons_of_mem d (ih h)

/-- A pattern containing a character absent from the string does not
occur. -/
theorem occursInC_false_of_not_mem {pat s : List Char} {c : Char}
    (hc : c ∈ pat) (hs : c ∉ s) : occursInC pat s = false := by
  cases hoc : occursInC pat s with
  | false => rfl
  | true => exact absurd (mem_of_occursInC hoc hc) hs

/-- Replacement is the identity on strings without an occurrence of the
pattern. -/
theorem pyReplaceC_no_occur {pat : List Char} (repl : List Char) {s : List Char}
    (h : occursInC pat s = false) : pyReplaceC pat repl s = s := by
  induction s with
  | nil => exact pyReplaceC_nil pat repl
  | cons c rest ih =>
    simp only [occursInC, Bool.or_eq_false_iff] at h
    rw [pyReplaceC_cons_neg repl h.1, ih h.2]

/-- Replacement steps over a block inside which no occurrence of the
pattern can start, whatever follows the block. -/
theorem pyReplaceC_block (pat repl a : List Char)
    (h : noMatchWithin pat a = true) (t : List Char) :
    pyReplaceC pat repl (a ++ t) = a ++ pyReplaceC pat repl t := by
  induction a generalizing t with
  | nil => simp
  | cons c rest ih =>
    have hall := List.all_eq_true.mp h
    have h0 := hall 0 (by simp)
    simp only [List.drop_zero, Bool.and_eq_true, Bool.not_eq_true'] at h0
    have hrest : noMatchWithin pat rest = true := by
      rw [noMatchWithin, List.all_eq_true]
      intro i hi
      rw [List.mem_range] at hi
      have := hall (i + 1) (by simp only [List.mem_range, List.length_cons]; omega)
      simpa using this
    have hno : pat.isPrefixOf (c :: (rest ++ t)) = false := by
      rw [← List.cons_append, Bool.eq_false_iff]
      intro hpre
      rw [List.isPrefixOf_iff_prefix] at hpre
      have hca : (c :: rest) <+: (c :: rest) ++ t := List.prefix_append _ _
      rcases List.prefix_or_prefix_of_prefix hpre hca with h1 | h1
      · have hb := List.isPrefixOf_iff_prefix.mpr h1
        rw [h0.2] at hb
        exact absurd hb (by simp)
      · have hb := List.isPrefixOf_iff_prefix.mpr h1
        rw [h0.1] at hb
        exact absurd hb (by simp)
    rw [List.cons_append, pyReplaceC_cons_neg repl hno, ih hrest, List.cons_append]

/-! ## The formatter on canonical chords -/

/-- Unfolding of the character data of `shiftReps`. -/
theorem shiftReps_data (n : Nat) :
    (shiftReps (n + 1)).data = "Shift+".data ++ (shiftReps n).data := by
  simp [shiftReps, String.data_append]

/-- Unfolding of the character data of `shiftLows`. -/
theorem shiftLows_data (n : Nat) :
    (shiftLows (n + 1)).data = "shift-".data ++ (shiftLows n).data := by
  simp [shiftLows, String.data_append]

/-- Replacement steps over any number of `Shift+` blocks when no occurrence
of the pattern can start inside one. -/
theorem pyReplaceC_shiftReps (pat repl : List Char)
    (h : noMatchWithin pat ("Shift+".data) = true) (n : Nat) (t : List Char) :
    pyReplaceC pat repl ((shiftReps n).data ++ t)
      = (shiftReps n).data ++ pyReplaceC pat repl t := by
  induction n generalizing t with
  | zero => simp [shiftReps]
  | succ n ih =>
    rw [shiftReps_data, List.append_assoc, pyReplaceC_block pat repl _ h,
      ih, List.append_assoc]

/-- Replacement is the identity on a non-empty alphanumeric key when the
pattern contains a plus sign. -/
theorem pyReplaceC_alnum_key (pat repl : List Char) (hplus : '+' ∈ pat)
    (key : String) (hk : ∀ c ∈ key.data, isAlnumChar c = true) :
    pyReplaceC pat repl key.data = key.data := by
  apply pyReplaceC_no_occur
  apply occursInC_false_of_not_mem hplus
  intro hmem
  exact alnum_ne_plus _ (hk _ hmem) rfl

/-- The `Shift+` replacement turns the shift blocks into `shift-` blocks
and leaves the key unchanged. -/
theorem pyReplaceC_shift_to_low (key : String)
    (hk : ∀ c ∈ key.data, isAlnumChar c = true) (n : Nat) :
    pyReplaceC "Shift+".data "shift-".data ((shiftReps n).data ++ key.data)
      = (shiftLows n).data ++ key.data := by
  induction n with
  | zero =>
    simp only [shiftReps, shiftLows]
    exact pyReplaceC_alnum_key _ _ (by decide) key hk
  | succ n ih =>
    rw [shiftReps_data, List.append_assoc,
      pyReplaceC_append_match _ (by decide), ih, shiftLows_data, List.append_assoc]

/-- The character data of the fully replaced chord text for an opener
chord, before the closing logic: the two control openers rewrite to the
control token opener. -/
theorem kb2_data_copen (o : Opener) (ho : o = .cmd ∨ o = .ctrl) (n : Nat) (key : String)
    (hk : ∀ c ∈ key.data, isAlnumChar c = true) :
    (pyReplace (pyReplace (pyReplace (pyReplace
        (Chord.render ⟨some o, n, key⟩) "Cmd+" "C(\"") "Ctrl+" "C(\"")
        "Alt+" "A(\"") "Shift+" "shift-").data
      = "C(\"".data ++ ((shiftLows n).data ++ key.data) := by
  have hrender : (Chord.render ⟨some o, n, key⟩).data
      = o.str.data ++ ((shiftReps n).data ++ key.data) := by
    simp [Chord.render, String.data_append, List.append_assoc]
  simp only [pyReplace]
  rcases ho with rfl | rfl
  · rw [hrender]
    show pyReplaceC "Shift+".data "shift-".data (pyReplaceC "Alt+".data "A(\"".data
      (pyReplaceC "Ctrl+".data "C(\"".data (pyReplaceC "Cmd+".data "C(\"".data
        ("Cmd+".data ++ ((shiftReps n).data ++ key.data))))) = _
    rw [pyReplaceC_append_match _ (by decide),
      pyReplaceC_shiftReps _ _ (by decide),
      pyReplaceC_alnum_key _ _ (by decide) key hk,
      pyReplaceC_block _ _ ("C(\"".data) (by decide),
      pyReplaceC_shiftReps _ _ (by decide),
      pyReplaceC_alnum_key _ _ (by decide) key hk,
      pyReplaceC_block _ _ ("C(\"".data) (by decide),
      pyReplaceC_shiftReps _ _ (by decide),
      pyReplaceC_alnum_key _ _ (by decide) key hk,
      pyReplaceC_block _ _ ("C(\"".data) (by decide),
      pyReplaceC_shift_to_low key hk]
  · rw [hrender]
    show pyReplaceC "Shift+".data "shift-".data (pyReplaceC "Alt+".data "A(\"".data
      (pyReplaceC "Ctrl+".data "C(\"".data (pyReplaceC "Cmd+".data "C(\"".data
        ("Ctrl+".data ++ ((shiftReps n).data ++ key.data))))) = _
    rw [pyReplaceC_block _ _ ("Ctrl+".data) (by decide),
      pyReplaceC_shiftReps _ _ (by decide),
      pyReplaceC_alnum_key _ _ (by decide) key hk,
      pyReplaceC_append_match _ (by decide),
      pyReplaceC_shiftReps _ _ (by decide),
      pyReplaceC_alnum_key _ _ (by decide) key hk,
      pyReplaceC_block _ _ ("C(\"".data) (by decide),
      pyReplaceC_shiftReps _ _ (by decide),
      pyReplaceC_alnum_key _ _ (by decide) key hk,
      pyReplaceC_block _ _ ("C(\"".data) (by decide),
      pyReplaceC_shift_to_low key hk]

/-- The fully replaced chord text for an `Alt+` chord opens the alt
token. -/
theorem kb2_data_aopen (n : Nat) (key : String)
    (hk : ∀ c ∈ key.data, isAlnumChar c = true) :
    (pyReplace (pyReplace (pyReplace (pyReplace
        (Chord.render ⟨some .alt, n, key⟩) "Cmd+" "C(\"") "Ctrl+" "C(\"")
        "Alt+" "A(\"") "Shift+" "shift-").data
      = "A(\"".data ++ ((shiftLows n).data ++ key.data) := by
  have hrender : (Chord.render ⟨some .alt, n, key⟩).data
      = "Alt+".data ++ ((shiftReps n).data ++ key.data) := by
    simp [Chord.render, Opener.str, String.data_append, List.append_assoc]
  simp only [pyReplace]
  rw [hrender]
  show pyReplaceC "Shift+".data "shift-".data (pyReplaceC "Alt+".data "A(\"".data
    (pyReplaceC "Ctrl+".data "C(\"".data (pyReplaceC "Cmd+".data "C(\"".data
      ("Alt+".data ++ ((shiftReps n).data ++ key.data))))) = _
  rw [pyReplaceC_block _ _ ("Alt+".data) (by decide),
    pyReplaceC_shiftReps _ _ (by decide),
    pyReplaceC_alnum_key _ _ (by decide) key hk,
    pyReplaceC_block _ _ ("Alt+".data) (by decide),
    pyReplaceC_shiftReps _ _ (by decide),
    pyReplaceC_alnum_key _ _ (by decide) key hk,
    pyReplaceC_append_match _ (by decide),
    pyReplaceC_shiftReps _ _ (by decide),
    pyReplaceC_alnum_key _ _ (by decide) key hk,
    pyReplaceC_block _ _ ("A(\"".data) (by decide),
    pyReplaceC_shift_to_low key hk]

/-- The fully replaced chord text for a chord without an opener modifier:
only the shift blocks are rewritten. -/
theorem kb2_data_noopen (n : Nat) (key : String)
    (hk : ∀ c ∈ key.data, isAlnumChar c = true) :
    (pyReplace (pyReplace (pyReplace (pyReplace
        (Chord.render ⟨none, n, key⟩) "Cmd+" "C(\"") "Ctrl+" "C(\"")
        "Alt+" "A(\"") "Shift+" "shift-").data
      = (shiftLows n).data ++ key.data := by
  have hrender : (Chord.render ⟨none, n, key⟩).data
      = (shiftReps n).data ++ key.data := by
    simp [Chord.render, String.data_append]
  simp only [pyReplace]
  rw [hrender]
  show pyReplaceC "Shift+".data "shift-".data (pyReplaceC "Alt+".data "A(\"".data
    (pyReplaceC "Ctrl+".data "C(\"".data (pyReplaceC "Cmd+".data "C(\"".data
      ((shiftReps n).data ++ key.data)))) = _
  rw [pyReplaceC_shiftReps _ _ (by decide),
    pyReplaceC_alnum_key _ _ (by decide) key hk,
    pyReplaceC_shiftReps _ _ (by decide),
    pyReplaceC_alnum_key _ _ (by decide) key hk,
    pyReplaceC_shiftReps _ _ (by decide),
    pyReplaceC_alnum_key _ _ (by decide) key hk,
    pyReplaceC_shift_to_low key hk]

/-- A string whose data is the pattern followed by anything starts with the
pattern. -/
theorem pyStartsWith_of_data (s pat : String) (rest : List Char)
    (hdata : s.data = pat.data ++ rest) : pyStartsWith s pat = true := by
  unfold pyStartsWith
  rw [hdata]
  exact isPrefixOf_append_self _ _

/-- Prefix test fails on a head mismatch. -/
theorem isPrefixOf_false_of_head_ne (p0 : Char) (ps : List Char) (c : Char)
    (cs : List Char) (h : p0 ≠ c) : (p0 :: ps).isPrefixOf (c :: cs) = false := by
  simp [List.isPrefixOf, h]

/-- An alphanumeric string never starts with the control token opener. -/
theorem isPrefixOf_copen_alnum_false (l : List Char)
    (h : ∀ c ∈ l, isAlnumChar c = true) : ("C(\"".data).isPrefixOf l = false := by
  cases l with
  | nil => rfl
  | cons c rest =>
    cases rest with
    | nil => simp [List.isPrefixOf]
    | cons d rest2 =>
      have hd : isAlnumChar d = true := h d (by simp)
      have hne : ('(' : Char) ≠ d := by
        rintro rfl; exact absurd hd (by decide)
      simp [List.isPrefixOf, hne]

/-- An alphanumeric string never starts with the alt token opener. -/
theorem isPrefixOf_aopen_alnum_false (l : List Char)
    (h : ∀ c ∈ l, isAlnumChar c = true) : ("A(\"".data).isPrefixOf l = false := by
  cases l with
  | nil => rfl
  | cons c rest =>
    cases rest with
    | nil => simp [List.isPrefixOf]
    | cons d rest2 =>
      have hd : isAlnumChar d = true := h d (by simp)
      have hne : ('(' : Char) ≠ d := by
        rintro rfl; exact absurd hd (by decide)
      simp [List.isPrefixOf, hne]

/-- A string ending in an alphanumeric key does not end with the token
closer. -/
theorem pyEndsWith_close_false (s : String) (pre : List Char) (key : String)
    (hdata : s.data = pre ++ key.data) (hne : key.data ≠ [])
    (hk : ∀ c ∈ key.data, isAlnumChar c = true) : pyEndsWith s "\")" = false := by
  rcases List.eq_nil_or_concat key.data with h | ⟨ks, k, hconc⟩
  · exact absurd h hne
  · have hkk : isAlnumChar k = true := by
      refine hk k ?_
      rw [hconc, List.concat_eq_append]
      simp
    have hkne : (')' : Char) ≠ k := by
      rintro rfl; exact absurd hkk (by decide)
    unfold pyEndsWith
    rw [hdata, hconc, List.concat_eq_append, ← List.append_assoc, List.reverse_append]
    rw [show ([k] : List Char).reverse = [k] from rfl]
    rw [show ("\")" : String).data.reverse = ')' :: qD :: [] from rfl]
    exact isPrefixOf_false_of_head_ne _ _ _ _ (by exact hkne)

/-- The data of `lowerStr`. -/
theorem lowerStr_data (s : String) : (lowerStr s).data = s.data.map Char.toLower := rfl

/-- Lower-casing fixes the `shift-` blocks. -/
theorem map_toLower_shiftLows (n : Nat) :
    (shiftLows n).data.map Char.toLower = (shiftLows n).data := by
  induction n with
  | zero => simp [shiftLows]
  | succ n ih =>
    rw [shiftLows_data, List.map_append, ih]
    congr 1

/-- The formatter on a canonical chord whose opener is `Cmd+` or `Ctrl+`:
it opens a control token, keeps the key text verbatim (no lower-casing) and
appends the closing sequence. -/
theorem format_key_binding_copen (o : Opener) (ho : o = .cmd ∨ o = .ctrl)
    (n : Nat) (key : String) (hne : key.data ≠ [])
    (hk : ∀ c ∈ key.data, isAlnumChar c = true) :
    format_key_binding (Chord.render ⟨some o, n, key⟩)
      = "C(\"" ++ shiftLows n ++ key ++ "\")" := by
  have hkb2 := kb2_data_copen o ho n key hk
  have hstart := pyStartsWith_of_data _ "C(\"" _ hkb2
  have hend := pyEndsWith_close_false _ ("C(\"".data ++ (shiftLows n).data) key
    (by rw [hkb2, List.append_assoc]) hne hk
  simp only [format_key_binding]
  rw [hstart, hend]
  simp only [Bool.not_false, Bool.and_self, if_true]
  refine String.ext ?_
  simp [String.data_append, hkb2, List.append_assoc]

/-- The formatter on a canonical chord whose opener is `Alt+`: it opens an
alt token, keeps the key text verbatim and appends the closing sequence. -/
theorem format_key_binding_aopen (n : Nat) (key : String) (hne : key.data ≠ [])
    (hk : ∀ c ∈ key.data, isAlnumChar c = true) :
    format_key_binding (Chord.render ⟨some .alt, n, key⟩)
      = "A(\"" ++ shiftLows n ++ key ++ "\")" := by
  have hkb2 := kb2_data_aopen n key hk
  have hstartA := pyStartsWith_of_data _ "A(\"" _ hkb2
  have hstartC : pyStartsWith
      (pyReplace (pyReplace (pyReplace (pyReplace
        (Chord.render ⟨some .alt, n, key⟩) "Cmd+" "C(\"") "Ctrl+" "C(\"")
        "Alt+" "A(\"") "Shift+" "shift-") "C(\"" = false := by
    unfold pyStartsWith
    rw [hkb2]
    exact isPrefixOf_false_of_head_ne _ _ _ _ (by decide)
  have hend := pyEndsWith_close_false _ ("A(\"".data ++ (shiftLows n).data) key
    (by rw [hkb2, List.append_assoc]) hne hk
  simp only [format_key_binding]
  rw [hstartA, hstartC, hend]
  simp only [Bool.not_false, Bool.and_self, Bool.false_and, if_false, if_true]
  refine String.ext ?_
  simp [String.data_append, hkb2, List.append_assoc]

/-- The formatter on a canonical chord without an opener modifier: no token
is opened, and the whole rewritten text is wrapped lower-cased as a plain
key token. -/
theorem format_key_binding_noopen (n : Nat) (key : String)
    (hk : ∀ c ∈ key.data, isAlnumChar c = true) :
    format_key_binding (Chord.render ⟨none, n, key⟩)
      = "K(\"" ++ shiftLows n ++ lowerStr key ++ "\")" := by
  have hkb2 := kb2_data_noopen n key hk
  have hstartC : pyStartsWith
      (pyReplace (pyReplace (pyReplace (pyReplace
        (Chord.render ⟨none, n, key⟩) "Cmd+" "C(\"") "Ctrl+" "C(\"")
        "Alt+" "A(\"") "Shift+" "shift-") "C(\"" = false := by
    unfold pyStartsWith
    rw [hkb2]
    cases n with
    | zero =>
      simp only [shiftLows]
      rw [List.nil_append]
      exact isPrefixOf_copen_alnum_false _ hk
    | succ n =>
      rw [shiftLows_data]
      exact isPrefixOf_false_of_head_ne _ _ _ _ (by decide)
  have hstartA : pyStartsWith
      (pyReplace (pyReplace (pyReplace (pyReplace
        (Chord.render ⟨none, n, key⟩) "Cmd+" "C(\"") "Ctrl+" "C(\"")
        "Alt+" "A(\"") "Shift+" "shift-") "A(\"" = false := by
    unfold pyStartsWith
    rw [hkb2]
    cases n with
    | zero =>
      simp only [shiftLows]
      rw [List.nil_append]
      exact isPrefixOf_aopen_alnum_false _ hk
    | succ n =>
      rw [shiftLows_data]
      exact isPrefixOf_false_of_head_ne _ _ _ _ (by decide)
  simp only [format_key_binding]
  rw [hstartC, hstartA]
  simp only [Bool.false_and, Bool.false_or, Bool.not_false, if_false, if_true]
  refine String.ext ?_
  simp [String.data_append, lowerStr_data, hkb2, List.map_append,
    map_toLower_shiftLows, List.append_assoc]

/-! ## Facts about the string-literal lexer -/

/-- One unfolding step of the lexer run. -/
theorem pyScan_cons (st : PyLexState) (c : Char) (cs : List Char) (st2 : PyLexState)
    (h : pyStep st c = some st2) : pyScan st (c :: cs) = pyScan st2 cs := by
  simp [pyScan, h]

/-- The lexer run is compositional over concatenation. -/
theorem pyScan_append (st : PyLexState) (a b : List Char) :
    pyScan st (a ++ b) = (pyScan st a).bind (fun st2 => pyScan st2 b) := by
  induction a generalizing st with
  | nil => simp [pyScan]
  | cons c cs ih =>
    rw [List.cons_append]
    simp only [pyScan]
    cases pyStep st c with
    | none => simp
    | some st2 => simp [ih st2]

/-- Characters keeping the normal state are skipped by the run. -/
theorem pyScan_normal_run (a : List Char)
    (h : ∀ c ∈ a, pyStep .normal c = some .normal) (b : List Char) :
    pyScan .normal (a ++ b) = pyScan .normal b := by
  induction a with
  | nil => simp
  | cons c cs ih =>
    rw [List.cons_append, pyScan_cons _ _ _ _ (h c (by simp))]
    exact ih (fun x hx => h x (by simp [hx]))

/-- Unpacking of the plain-content predicate. -/
theorem strPlain_spec (c : Char) (h : strPlain c = true) :
    c ≠ qD ∧ c ≠ qS ∧ c ≠ cNl ∧ c ≠ cBs := by
  simp only [strPlain, Bool.not_eq_true', Bool.or_eq_false_iff,
    decide_eq_false_iff_not] at h
  exact ⟨h.1.1.1, h.1.1.2, h.1.2, h.2⟩

/-- Plain content is skipped inside a double-quoted string. -/
theorem pyScan_dqIn_run (a : List Char) (h : ∀ c ∈ a, strPlain c = true)
    (b : List Char) : pyScan .dqIn (a ++ b) = pyScan .dqIn b := by
  induction a with
  | nil => simp
  | cons c cs ih =>
    have hc := strPlain_spec c (h c (by simp))
    rw [List.cons_append,
      pyScan_cons _ _ _ _ (show pyStep .dqIn c = some .dqIn by
        simp [pyStep, hc.1, hc.2.2.1, hc.2.2.2])]
    exact ih (fun x hx => h x (by simp [hx]))

/-- Plain content is skipped inside a single-quoted string. -/
theorem pyScan_sqIn_run (a : List Char) (h : ∀ c ∈ a, strPlain c = true)
    (b : List Char) : pyScan .sqIn (a ++ b) = pyScan .sqIn b := by
  induction a with
  | nil => simp
  | cons c cs ih =>
    have hc := strPlain_spec c (h c (by simp))
    rw [List.cons_append,
      pyScan_cons _ _ _ _ (show pyStep .sqIn c = some .sqIn by
        simp [pyStep, hc.2.1, hc.2.2.1, hc.2.2.2])]
    exact ih (fun x hx => h x (by simp [hx]))

/-- A complete double-quoted literal with plain content, followed by a
character that maps both the normal and the empty-string state to normal, is
consumed by the run. -/
theorem pyScan_dq_lit (a : List Char) (h : ∀ c ∈ a, strPlain c = true)
    (c2 : Char) (h2 : pyStep .normal c2 = some .normal)
    (h3 : pyStep .dq2 c2 = some .normal) (t : List Char) :
    pyScan .normal (qD :: (a ++ qD :: c2 :: t)) = pyScan .normal t := by
  cases a with
  | nil =>
    rw [List.nil_append,
      pyScan_cons _ _ _ _ (show pyStep .normal qD = some .dq1 by decide),
      pyScan_cons _ _ _ _ (show pyStep .dq1 qD = some .dq2 by decide),
      pyScan_cons _ _ _ _ h3]
  | cons c cs =>
    have hc := strPlain_spec c (h c (by simp))
    rw [pyScan_cons _ _ _ _ (show pyStep .normal qD = some .dq1 by decide),
      List.cons_append,
      pyScan_cons _ _ _ _ (show pyStep .dq1 c = some .dqIn by
        simp [pyStep, hc.1, hc.2.2.1, hc.2.2.2]),
      pyScan_dqIn_run cs (fun x hx => h x (by simp [hx])),
      pyScan_cons _ _ _ _ (show pyStep .dqIn qD = some .normal by decide),
      pyScan_cons _ _ _ _ h2]

/-- A complete single-quoted literal with plain content, followed by a
character that maps both the normal and the empty-string state to normal, is
consumed by the run. -/
theorem pyScan_sq_lit (a : List Char) (h : ∀ c ∈ a, strPlain c = true)
    (c2 : Char) (h2 : pyStep .normal c2 = some .normal)
    (h3 : pyStep .sq2 c2 = some .normal) (t : List Char) :
    pyScan .normal (qS :: (a ++ qS :: c2 :: t)) = pyScan .normal t := by
  cases a with
  | nil =>
    rw [List.nil_append,
      pyScan_cons _ _ _ _ (show pyStep .normal qS = some .sq1 by decide),
      pyScan_cons _ _ _ _ (show pyStep .sq1 qS = some .sq2 by decide),
      pyScan_cons _ _ _ _ h3]
  | cons c cs =>
    have hc := strPlain_spec c (h c (by simp))
    rw [pyScan_cons _ _ _ _ (show pyStep .normal qS = some .sq1 by decide),
      List.cons_append,
      pyScan_cons _ _ _ _ (show pyStep .sq1 c = some .sqIn by
        simp [pyStep, hc.2.1, hc.2.2.1, hc.2.2.2]),
      pyScan_sqIn_run cs (fun x hx => h x (by simp [hx])),
      pyScan_cons _ _ _ _ (show pyStep .sqIn qS = some .normal by decide),
      pyScan_cons _ _ _ _ h2]

/-- The run skips comment content up to the terminating newline. -/
theorem pyScan_comment_run (a : List Char) (h : ∀ c ∈ a, c ≠ cNl)
    (t : List Char) : pyScan .comment (a ++ cNl :: t) = pyScan .normal t := by
  induction a with
  | nil =>
    rw [List.nil_append,
      pyScan_cons _ _ _ _ (show pyStep .comment cNl = some .normal by decide)]
  | cons c cs ih =>
    rw [List.cons_append,
      pyScan_cons _ _ _ _ (show pyStep .comment c = some .comment by
        simp [pyStep, h c (by simp)])]
    exact ih (fun x hx => h x (by simp [hx]))

/-- A whole comment line is consumed by the run. -/
theorem pyScan_comment_line (a : List Char) (h : ∀ c ∈ a, c ≠ cNl)
    (t : List Char) :
    pyScan .normal (cHash :: (a ++ cNl :: t)) = pyScan .normal t := by
  rw [pyScan_cons _ _ _ _ (show pyStep .normal cHash = some .comment by decide)]
  exact pyScan_comment_run a h t

/-! ## Line-shaped fragments -/

/-- A string whose scan ends in a state that the newline returns to normal
is a good line. -/
theorem LineOk_of_scan (l : String) (st : PyLexState)
    (h : pyScan .normal l.data = some st) (h2 : pyStep st cNl = some .normal) :
    LineOk l := by
  intro t
  rw [show l.data ++ cNl :: t = l.data ++ (cNl :: t) from rfl, pyScan_append, h]
  show pyScan st (cNl :: t) = _
  rw [pyScan_cons _ _ _ _ h2]

/-- A string of normal-keeping characters is a good line. -/
theorem LineOk_of_normalKeeps (l : String) (h : NormalKeeps l) : LineOk l := by
  intro t
  rw [show l.data ++ cNl :: t = l.data ++ (cNl :: t) from rfl,
    pyScan_normal_run l.data h,
    pyScan_cons _ _ _ _ (show pyStep .normal cNl = some .normal by decide)]

/-- Joining good lines with newlines yields a good line. -/
theorem LineOk_join (lines : List String) (h : ∀ l ∈ lines, LineOk l) :
    LineOk (pyJoin "\n" lines) := by
  induction lines with
  | nil =>
    intro t
    rw [show (pyJoin "\n" []).data = [] from rfl, List.nil_append,
      pyScan_cons _ _ _ _ (show pyStep .normal cNl = some .normal by decide)]
  | cons l ls ih =>
    cases ls with
    | nil => exact h l (by simp)
    | cons l2 ls2 =>
      intro t
      have hshape : (pyJoin "\n" (l :: l2 :: ls2)).data ++ cNl :: t
          = l.data ++ cNl :: ((pyJoin "\n" (l2 :: ls2)).data ++ cNl :: t) := by
        rw [show pyJoin "\n" (l :: l2 :: ls2)
              = l ++ "\n" ++ pyJoin "\n" (l2 :: ls2) from rfl]
        simp [String.data_append, List.append_assoc]
        decide
      rw [hshape, h l (by simp), ih (fun x hx => h x (by simp [hx]))]

/-- The `shift-` blocks are plain string content. -/
theorem strPlain_shiftLows (n : Nat) : ∀ c ∈ (shiftLows n).data, strPlain c = true := by
  induction n with
  | zero => intro c hc; exact absurd hc (by simp [shiftLows])
  | succ n ih =>
    intro c hc
    rw [shiftLows_data] at hc
    rcases List.mem_append.mp hc with h | h
    · have hall : ∀ x ∈ "shift-".data, strPlain x = true := by decide
      exact hall c h
    · exact ih c h

/-- Lower-cased alphanumeric keys are plain string content. -/
theorem strPlain_lower_key (key : String)
    (hk : ∀ c ∈ key.data, isAlnumChar c = true) :
    ∀ c ∈ (lowerStr key).data, strPlain c = true := by
  intro c hc
  rw [lowerStr_data] at hc
  rcases List.mem_map.mp hc with ⟨d, hd, rfl⟩
  exact strPlain_toLower d (hk d hd)

/-- Alphanumeric characters are not the newline. -/
theorem alnum_ne_nl (c : Char) (h : isAlnumChar c = true) : c ≠ cNl := by
  rintro rfl; exact absurd h (by decide)

/-- A formatter token: an opening letter, a parenthesis, and a quoted
two-part plain inner text, followed by the closing quote and parenthesis. -/
theorem pyScan_token2 (x : Char) (hx : pyStep .normal x = some .normal)
    (in1 in2 : List Char) (h1 : ∀ c ∈ in1, strPlain c = true)
    (h2 : ∀ c ∈ in2, strPlain c = true) (t : List Char) :
    pyScan .normal (x :: '(' :: qD :: (in1 ++ (in2 ++ qD :: ')' :: t)))
      = pyScan .normal t := by
  rw [pyScan_cons _ _ _ _ hx,
    pyScan_cons _ _ _ _ (show pyStep .normal '(' = some .normal by decide),
    ← List.append_assoc]
  refine pyScan_dq_lit (in1 ++ in2) ?_ ')' (by decide) (by decide) t
  intro c hc
  rcases List.mem_append.mp hc with h | h
  · exact h1 c h
  · exact h2 c h

/-- Scanning a formatted canonical chord from the normal state consumes it
and returns to the normal state. -/
theorem format_scan (c : Chord) (hWf : c.Wf) (t : List Char) :
    pyScan .normal ((format_key_binding c.render).data ++ t) = pyScan .normal t := by
  obtain ⟨hne, hk⟩ := hWf
  obtain ⟨op, n, key⟩ := c
  cases op with
  | none =>
    rw [format_key_binding_noopen n key hk]
    rw [show ("K(\"" ++ shiftLows n ++ lowerStr key ++ "\")").data
        = 'K' :: '(' :: qD :: ((shiftLows n).data ++ ((lowerStr key).data ++ qD :: ')' :: []))
      from by simp [String.data_append, List.append_assoc] <;> decide]
    rw [List.cons_append, List.cons_append, List.cons_append, List.append_assoc,
      List.append_assoc]
    rw [show (qD :: ')' :: []) ++ t = qD :: ')' :: t from rfl]
    exact pyScan_token2 'K' (by decide) _ _ (strPlain_shiftLows n)
      (strPlain_lower_key key hk) t
  | some o =>
    cases o with
    | cmd =>
      rw [format_key_binding_copen .cmd (Or.inl rfl) n key hne hk]
      rw [show ("C(\"" ++ shiftLows n ++ key ++ "\")").data
          = 'C' :: '(' :: qD :: ((shiftLows n).data ++ (key.data ++ qD :: ')' :: []))
        from by simp [String.data_append, List.append_assoc] <;> decide]
      rw [List.cons_append, List.cons_append, List.cons_append, List.append_assoc,
        List.append_assoc]
      rw [show (qD :: ')' :: []) ++ t = qD :: ')' :: t from rfl]
      exact pyScan_token2 'C' (by decide) _ _ (strPlain_shiftLows n)
        (fun x hx => strPlain_of_alnum x (hk x hx)) t
    | ctrl =>
      rw [format_key_binding_copen .ctrl (Or.inr rfl) n key hne hk]
      rw [show ("C(\"" ++ shiftLows n ++ key ++ "\")").data
          = 'C' :: '(' :: qD :: ((shiftLows n).data ++ (key.data ++ qD :: ')' :: []))
        from by simp [String.data_append, List.append_assoc] <;> decide]
      rw [List.cons_append, List.cons_append, List.cons_append, List.append_assoc,
        List.append_assoc]
      rw [show (qD :: ')' :: []) ++ t = qD :: ')' :: t from rfl]
      exact pyScan_token2 'C' (by decide) _ _ (strPlain_shiftLows n)
        (fun x hx => strPlain_of_alnum x (hk x hx)) t
    | alt =>
      rw [format_key_binding_aopen n key hne hk]
      rw [show ("A(\"" ++ shiftLows n ++ key ++ "\")").data
          = 'A' :: '(' :: qD :: ((shiftLows n).data ++ (key.data ++ qD :: ')' :: []))
        from by simp [String.data_append, List.append_assoc] <;> decide]
      rw [List.cons_append, List.cons_append, List.cons_append, List.append_assoc,
        List.append_assoc]
      rw [show (qD :: ')' :: []) ++ t = qD :: ')' :: t from rfl]
      exact pyScan_token2 'A' (by decide) _ _ (strPlain_shiftLows n)
        (fun x hx => strPlain_of_alnum x (hk x hx)) t

/-- A binding line of the application and global-shortcut tables is a good
line when both chords are canonical. -/
theorem LineOk_bindingLine (k v : String) (hk : WfChordStr k) (hv : WfChordStr v) :
    LineOk (bindingLine k v) := by
  obtain ⟨ck, hck, hkr⟩ := hk
  obtain ⟨cv, hcv, hvr⟩ := hv
  intro t
  have hshape : (bindingLine k v).data ++ cNl :: t
      = "    ".data ++ ((format_key_binding k).data
        ++ (": ".data ++ ((format_key_binding v).data ++ ',' :: cNl :: t))) := by
    simp [bindingLine, String.data_append, List.append_assoc] <;> decide
  rw [hshape, pyScan_normal_run _ (by decide), ← hkr, format_scan ck hck,
    pyScan_normal_run _ (by decide), ← hvr, format_scan cv hcv,
    pyScan_cons _ _ _ _ (show pyStep .normal ',' = some .normal by decide),
    pyScan_cons _ _ _ _ (show pyStep .normal cNl = some .normal by decide)]

/-- The per-application table opener line is a good line. -/
theorem LineOk_keymap_open (name : String) (h : AlnumStr name) :
    LineOk ("keymap(\"" ++ name ++ "\", \x7b") := by
  intro t
  have hshape : ("keymap(\"" ++ name ++ "\", \x7b").data ++ cNl :: t
      = "keymap(".data ++ (qD :: (name.data ++ qD :: ',' :: (" \x7b".data ++ cNl :: t))) := by
    simp [String.data_append, List.append_assoc] <;> decide
  rw [hshape, pyScan_normal_run _ (by decide),
    pyScan_dq_lit name.data (fun c hc => strPlain_of_alnum c (h.2 c hc)) ','
      (by decide) (by decide),
    pyScan_normal_run _ (by decide),
    pyScan_cons _ _ _ _ (show pyStep .normal cNl = some .normal by decide)]

/-- The per-application comment line (with its leading blank line) is a
good line. -/
theorem LineOk_app_comment (name : String) (h : AlnumStr name) :
    LineOk ("\n# Configuration for " ++ name) := by
  intro t
  have hshape : ("\n# Configuration for " ++ name).data ++ cNl :: t
      = cNl :: cHash :: ((" Configuration for ".data ++ name.data) ++ cNl :: t) := by
    simp [String.data_append, List.append_assoc] <;> decide
  rw [hshape, pyScan_cons _ _ _ _ (show pyStep .normal cNl = some .normal by decide)]
  refine pyScan_comment_line _ ?_ t
  intro c hc
  rcases List.mem_append.mp hc with h1 | h1
  · have hall : ∀ x ∈ " Configuration for ".data, x ≠ cNl := by decide
    exact hall c h1
  · exact alnum_ne_nl c (h.2 c h1)

/-- Every line of one application block is a good line. -/
theorem LineOk_appBlock (app : String × List (String × String))
    (hn : AlnumStr app.1) (hb : WfBindings app.2) :
    ∀ l ∈ appBlockLines app, LineOk l := by
  intro l hl
  simp only [appBlockLines, List.cons_append, List.nil_append, List.mem_cons,
    List.mem_append, List.mem_map, List.mem_singleton, List.not_mem_nil,
    or_false] at hl
  rcases hl with rfl | rfl | ⟨x, hx, rfl⟩ | rfl
  · exact LineOk_app_comment app.1 hn
  · exact LineOk_keymap_open app.1 hn
  · exact LineOk_bindingLine x.1 x.2 (hb x hx).1 (hb x hx).2
  · exact LineOk_of_normalKeeps _ (by unfold NormalKeeps; decide)

/-- The application fragment is a good line under the canonical chord
hypotheses. -/
theorem LineOk_generate_application_configs
    (apps : List (String × List (String × String))) (h : WfApplications apps) :
    LineOk (generate_application_configs apps) := by
  unfold generate_application_configs
  split
  · exact LineOk_of_scan _ .comment (by decide) (by decide)
  · apply LineOk_join
    intro l hl
    simp only [generate_application_configs_lines, List.mem_cons] at hl
    rcases hl with rfl | hl
    · exact LineOk_of_scan _ .comment (by decide) (by decide)
    · rcases List.mem_flatMap.mp hl with ⟨app, happ, hlmem⟩
      exact LineOk_appBlock app (h app happ).1 (h app happ).2 l hlmem

/-- The global-shortcuts fragment is a good line under the canonical chord
hypotheses. -/
theorem LineOk_generate_global_shortcuts (sc : List (String × String))
    (h : WfBindings sc) : LineOk (generate_global_shortcuts sc) := by
  unfold generate_global_shortcuts
  split
  · exact LineOk_of_scan _ .comment (by decide) (by decide)
  · apply LineOk_join
    intro l hl
    simp only [generate_global_shortcuts_lines, List.cons_append, List.nil_append,
      List.mem_cons, List.mem_append, List.mem_map, List.mem_singleton,
      List.not_mem_nil, or_false] at hl
    rcases hl with rfl | rfl | ⟨x, hx, rfl⟩ | rfl
    · exact LineOk_of_scan _ .comment (by decide) (by decide)
    · exact LineOk_of_scan _ .normal (by decide) (by decide)
    · exact LineOk_bindingLine x.1 x.2 (h x hx).1 (h x hx).2
    · exact LineOk_of_normalKeeps _ (by unfold NormalKeeps; decide)

/-- The log-level line is a good line for plain level text. -/
theorem LineOk_log_level (lvl : String) (h : StrPlainAll lvl) :
    LineOk ("LOG_LEVEL = \x27" ++ lvl ++ "\x27") := by
  intro t
  have hshape : ("LOG_LEVEL = \x27" ++ lvl ++ "\x27").data ++ cNl :: t
      = "LOG_LEVEL = ".data ++ (qS :: (lvl.data ++ qS :: cNl :: t)) := by
    simp [String.data_append, List.append_assoc] <;> decide
  rw [hshape, pyScan_normal_run _ (by decide)]
  exact pyScan_sq_lit lvl.data h cNl (by decide) (by decide) t

/-- The base-configuration fragment is a good line under the plain-value
hypotheses. -/
theorem LineOk_generate_base_config (opts : Options)
    (hlvl : ∀ lvl, opts.logging_level = some lvl → StrPlainAll lvl)
    (hprio : ∀ p : Int, opts.performance_priority = some p → NormalKeeps (toString p)) :
    LineOk (generate_base_config opts) := by
  apply LineOk_join
  intro l hl
  have hlog : LineOk ("LOG_LEVEL = \x27" ++ opts.logging_level.getD "INFO" ++ "\x27") := by
    apply LineOk_log_level
    cases hol : opts.logging_level with
    | none => unfold StrPlainAll; decide
    | some lvl => exact hlvl lvl hol
  simp only [generate_base_config_lines] at hl
  rcases List.mem_append.mp hl with h1 | h1
  · rcases List.mem_append.mp h1 with h2 | h2
    · simp only [List.mem_cons, List.not_mem_nil, or_false] at h2
      rcases h2 with rfl | rfl | rfl
      · exact LineOk_of_scan _ .comment (by decide) (by decide)
      · exact LineOk_of_scan _ .normal (by decide) (by decide)
      · exact hlog
    · cases hop : opts.performance_priority with
      | none =>
        simp only [hop] at h2
        exact absurd h2 (List.not_mem_nil l)
      | some p =>
        simp only [hop] at h2
        by_cases hp : p = 0
        · rw [if_neg (by simp [hp])] at h2
          exact absurd h2 (List.not_mem_nil l)
        · rw [if_pos hp] at h2
          rw [List.mem_singleton] at h2
          subst h2
          apply LineOk_of_normalKeeps
          intro c hc
          rw [String.data_append] at hc
          rcases List.mem_append.mp hc with h3 | h3
          · have hall : ∀ x ∈ "PROCESS_PRIORITY = ".data,
                pyStep .normal x = some .normal := by decide
            exact hall c h3
          · exact hprio p hop c h3
  · cases hos : opts.security_restrictedMode with
    | none =>
      simp only [hos] at h1
      exact absurd h1 (List.not_mem_nil l)
    | some b =>
      cases b with
      | false =>
        simp only [hos] at h1
        exact absurd h1 (List.not_mem_nil l)
      | true =>
        simp only [hos] at h1
        rw [List.mem_singleton] at h1
        subst h1
        exact LineOk_of_normalKeeps _ (by unfold NormalKeeps; decide)

/-- Both Mac-style fragments are good lines. -/
theorem LineOk_generate_mac_style_config (b : Bool) :
    LineOk (generate_mac_style_config b) := by
  cases b with
  | false => exact LineOk_of_scan _ .comment (by decide) (by decide)
  | true => exact LineOk_of_scan _ .normal (by decide) (by decide)

/-- The timestamp slot: from inside the opened string, plain timestamp text
followed by the closing quote and the newline returns to normal. -/
theorem pyScan_dq1_time (g : List Char) (h : ∀ c ∈ g, strPlain c = true)
    (t : List Char) : pyScan .dq1 (g ++ qD :: cNl :: t) = pyScan .normal t := by
  cases g with
  | nil =>
    rw [List.nil_append,
      pyScan_cons _ _ _ _ (show pyStep .dq1 qD = some .dq2 by decide),
      pyScan_cons _ _ _ _ (show pyStep .dq2 cNl = some .normal by decide)]
  | cons c cs =>
    have hc := strPlain_spec c (h c (by simp))
    rw [List.cons_append,
      pyScan_cons _ _ _ _ (show pyStep .dq1 c = some .dqIn by
        simp [pyStep, hc.1, hc.2.2.1, hc.2.2.2]),
      pyScan_dqIn_run cs (fun x hx => h x (by simp [hx])),
      pyScan_cons _ _ _ _ (show pyStep .dqIn qD = some .normal by decide),
      pyScan_cons _ _ _ _ (show pyStep .normal cNl = some .normal by decide)]

/-- Scanning the assembled document of a well-formed options bundle (with
the default empty custom-configuration text) ends in an accepted state: the
spec-modelled syntax check passes. -/
theorem generate_config_scan_ok (generation_time : String) (opts : Options)
    (hT : StrPlainAll generation_time) (hW : WfRoundtripOptions opts) :
    pyAcceptState (pyScan .normal (generate_config generation_time opts "").data)
      = true := by
  obtain ⟨hlvl, hprio, hkb⟩ := hW
  have hbase : LineOk (generate_base_config opts) :=
    LineOk_generate_base_config opts hlvl hprio
  have hmac : LineOk (generate_mac_style_config
      (match opts.keybindings with | some kb => kb.macStyle | none => false)) :=
    LineOk_generate_mac_style_config _
  have happs : LineOk (generate_application_configs
      (match opts.keybindings with | some kb => kb.applications | none => [])) := by
    apply LineOk_generate_application_configs
    cases hk : opts.keybindings with
    | none => exact fun a ha => absurd ha (List.not_mem_nil a)
    | some kb => exact (hkb kb hk).1
  have hglob : LineOk (generate_global_shortcuts
      (match opts.keybindings with | some kb => kb.globalShortcuts | none => [])) := by
    apply LineOk_generate_global_shortcuts
    cases hk : opts.keybindings with
    | none => exact fun a ha => absurd ha (List.not_mem_nil a)
    | some kb => exact (hkb kb hk).2
  simp only [generate_config, if_true]
  simp only [String.data_append, List.append_assoc]
  simp only [show tplAfterTime.data = qD :: cNl :: cNl :: [] from rfl,
    show tplSep.data = cNl :: cNl :: [] from rfl,
    show tplTail.data = cNl :: cNl ::
      ("# Configuration validation\nif __name__ == \"__main__\":\n    print(f\"Toshy configuration loaded successfully\")\n    print(f\"Generated by: \x7bGENERATED_BY\x7d\")\n    print(f\"Generation time: \x7bGENERATION_TIME\x7d\")\n" : String).data from rfl,
    List.cons_append, List.nil_append]
  rw [pyScan_append,
    show pyScan .normal tplHead.data = some PyLexState.dq1 from by decide,
    Option.some_bind]
  rw [pyScan_dq1_time generation_time.data hT,
    pyScan_cons _ _ _ _ (show pyStep .normal cNl = some .normal by decide),
    hbase,
    pyScan_cons _ _ _ _ (show pyStep .normal cNl = some .normal by decide),
    hmac,
    pyScan_cons _ _ _ _ (show pyStep .normal cNl = some .normal by decide),
    happs,
    pyScan_cons _ _ _ _ (show pyStep .normal cNl = some .normal by decide),
    hglob,
    pyScan_cons _ _ _ _ (show pyStep .normal cNl = some .normal by decide)]
  decide

/-! ## Supporting facts for the claim theorems -/

/-- Strings with distinct head characters are distinct. -/
theorem ne_of_data_head (s t : String) (c d : Char) (cs ds : List Char)
    (hs : s.data = c :: cs) (ht : t.data = d :: ds) (h : c ≠ d) : s ≠ t := by
  intro he
  rw [he, ht] at hs
  exact h (by injection hs with h1 h2; exact h1.symm)

/-- The fully replaced text of a double-opener chord `Cmd+Alt+key`: both
replacements fire. -/
theorem kb2_data_cmd_alt (t : String) (hk : ∀ c ∈ t.data, isAlnumChar c = true) :
    (pyReplace (pyReplace (pyReplace (pyReplace
        ("Cmd+Alt+" ++ t) "Cmd+" "C(\"") "Ctrl+" "C(\"")
        "Alt+" "A(\"") "Shift+" "shift-").data
      = "C(\"".data ++ ("A(\"".data ++ t.data) := by
  have hrender : ("Cmd+Alt+" ++ t).data = "Cmd+".data ++ ("Alt+".data ++ t.data) := by
    simp [String.data_append]
  simp only [pyReplace]
  rw [hrender]
  show pyReplaceC "Shift+".data "shift-".data (pyReplaceC "Alt+".data "A(\"".data
    (pyReplaceC "Ctrl+".data "C(\"".data (pyReplaceC "Cmd+".data "C(\"".data
      ("Cmd+".data ++ ("Alt+".data ++ t.data)))))
    = "C(\"".data ++ ("A(\"".data ++ t.data)
  rw [pyReplaceC_append_match _ (by decide),
    pyReplaceC_block _ _ ("Alt+".data) (by decide),
    pyReplaceC_alnum_key _ _ (by decide) t hk,
    pyReplaceC_block _ _ ("C(\"".data) (by decide),
    pyReplaceC_block _ _ ("Alt+".data) (by decide),
    pyReplaceC_alnum_key _ _ (by decide) t hk,
    pyReplaceC_block _ _ ("C(\"".data) (by decide),
    pyReplaceC_append_match _ (by decide),
    pyReplaceC_alnum_key _ _ (by decide) t hk,
    pyReplaceC_block _ _ ("C(\"".data) (by decide),
    pyReplaceC_block _ _ ("A(\"".data) (by decide),
    pyReplaceC_alnum_key _ _ (by decide) t hk]

/-- The formatter on a `Cmd+Alt+` chord: both the control and the alt
replacement fire, leaving the three-quote token of the round-trip
counterexample. -/
theorem format_key_binding_cmd_alt (t : String) (hne : t.data ≠ [])
    (hk : ∀ c ∈ t.data, isAlnumChar c = true) :
    format_key_binding ("Cmd+Alt+" ++ t) = "C(\"A(\"" ++ t ++ "\")" := by
  have hkb2 := kb2_data_cmd_alt t hk
  have hstart := pyStartsWith_of_data _ "C(\"" _ hkb2
  have hend := pyEndsWith_close_false _ ("C(\"".data ++ "A(\"".data) t
    (by rw [hkb2, List.append_assoc]) hne hk
  simp only [format_key_binding]
  rw [hstart, hend]
  simp only [Bool.not_false, Bool.and_self, if_true]
  refine String.ext ?_
  simp [String.data_append, hkb2, List.append_assoc]

/-- The application-fragment header is not a table opener. -/
theorem not_opener_header :
    pyStartsWith "# Application-specific keybinding configurations" "keymap(\"" = false := by
  decide

/-- The per-application comment line is not a table opener. -/
theorem not_opener_comment (name : String) :
    pyStartsWith ("\n# Configuration for " ++ name) "keymap(\"" = false := by
  unfold pyStartsWith
  rw [show ("\n# Configuration for " ++ name).data
      = cNl :: ("# Configuration for ".data ++ name.data) from by
    simp [String.data_append] <;> decide]
  rw [show ("keymap(\"" : String).data = 'k' :: "eymap(\"".data from by decide]
  exact isPrefixOf_false_of_head_ne _ _ _ _ (by decide)

/-- A binding line is not a table opener. -/
theorem not_opener_binding (k v : String) :
    pyStartsWith (bindingLine k v) "keymap(\"" = false := by
  unfold pyStartsWith
  rw [show (bindingLine k v).data
      = ' ' :: ("   ".data ++ ((format_key_binding k).data
          ++ (": ".data ++ ((format_key_binding v).data ++ ",".data)))) from by
    simp [bindingLine, String.data_append, List.append_assoc] <;> decide]
  rw [show ("keymap(\"" : String).data = 'k' :: "eymap(\"".data from by decide]
  exact isPrefixOf_false_of_head_ne _ _ _ _ (by decide)

/-- The table-closing line is not a table opener. -/
theorem not_opener_close : pyStartsWith "\x7d)" "keymap(\"" = false := by
  decide

/-- The opener line of an application is a table opener. -/
theorem opener_is_opener (name : String) :
    pyStartsWith ("keymap(\"" ++ name ++ "\", \x7b") "keymap(\"" = true := by
  apply pyStartsWith_of_data _ _ (name.data ++ "\", \x7b".data)
  simp [String.data_append]

/-! # Claim theorems -/

/-- C4 counterexample: the claim says the final single-key token is
lower-cased for every chord, giving `Cmd+T` a lower-cased key letter; the
formatter in fact emits `C("T")`, with the key letter upper-case, not
`C("t")`. -/
theorem C4_case_counterexample :
    format_key_binding "Cmd+T" = "C(\"T\")" ∧
    format_key_binding "Cmd+T" ≠ "C(\"t\")" := by
  constructor
  · rfl
  · decide

/-- C4 amended: the input case is never normalized before the rewrite, and
lower-casing happens only in the plain-key branch: a canonical chord with a
`Cmd+`/`Ctrl+`/`Alt+` opener keeps its key text verbatim in the emitted
token, while a chord without an opener is wrapped as a plain key token with
the whole rewritten text lower-cased. -/
theorem C4_case_amended :
    (∀ (o : Opener) (n : Nat) (key : String), key.data ≠ [] →
      (∀ c ∈ key.data, isAlnumChar c = true) → (o = .cmd ∨ o = .ctrl) →
      format_key_binding (Chord.render ⟨some o, n, key⟩)
        = "C(\"" ++ shiftLows n ++ key ++ "\")") ∧
    (∀ (n : Nat) (key : String), key.data ≠ [] →
      (∀ c ∈ key.data, isAlnumChar c = true) →
      format_key_binding (Chord.render ⟨some .alt, n, key⟩)
        = "A(\"" ++ shiftLows n ++ key ++ "\")") ∧
    (∀ (n : Nat) (key : String),
      (∀ c ∈ key.data, isAlnumChar c = true) →
      format_key_binding (Chord.render ⟨none, n, key⟩)
        = "K(\"" ++ shiftLows n ++ lowerStr key ++ "\")") := by
  refine ⟨?_, ?_, ?_⟩
  · intro o n key hne hk ho
    exact format_key_binding_copen o ho n key hne hk
  · intro n key hne hk
    exact format_key_binding_aopen n key hne hk
  · intro n key hk
    exact format_key_binding_noopen n key hk

/-- C4 witness: the amended theorem applied to the chords `Cmd+T` (case
kept) and `T` (lower-cased). -/
theorem C4_case_witness :
    format_key_binding (Chord.render ⟨some .cmd, 0, "T"⟩)
        = "C(\"" ++ shiftLows 0 ++ "T" ++ "\")" ∧
    format_key_binding (Chord.render ⟨none, 0, "T"⟩)
        = "K(\"" ++ shiftLows 0 ++ lowerStr "T" ++ "\")" :=
  ⟨C4_case_amended.1 .cmd 0 "T" (by decide) (by decide) (Or.inl rfl),
   C4_case_amended.2.2 0 "T" (by decide)⟩

/-- C5 counterexample: the claim says that on a string containing `Cmd+`
the `Alt+` replacement of step 2 is not applied; on `Cmd+Alt+T` the
formatter in fact applies both replacements, emitting `C("A("T")`, which
contains the alt-token open sequence. -/
theorem C5_first_match_counterexample :
    format_key_binding "Cmd+Alt+T" = "C(\"A(\"T\")" ∧
    containsSubstr (format_key_binding "Cmd+Alt+T") "A(\"" := by
  constructor
  · rfl
  · exact ⟨"C(\"", "T\")", by rfl⟩

/-- C5 amended: the replacement steps are applied unconditionally in
sequence, not first-match-wins: `Cmd+`/`Ctrl+` are rewritten wherever they
occur, and `Alt+` is then also rewritten even in strings that contained
`Cmd+`; only the closing logic is branch-based.  Concretely, `Cmd+Alt+key`
gets both openers, and `Alt+key` (no `Cmd+`/`Ctrl+`) gets the alt
opener. -/
theorem C5_sequential_amended :
    (∀ t : String, t.data ≠ [] → (∀ c ∈ t.data, isAlnumChar c = true) →
      format_key_binding ("Cmd+Alt+" ++ t) = "C(\"A(\"" ++ t ++ "\")") ∧
    (∀ t : String, t.data ≠ [] → (∀ c ∈ t.data, isAlnumChar c = true) →
      format_key_binding ("Alt+" ++ t) = "A(\"" ++ t ++ "\")") := by
  constructor
  · intro t hne hk
    exact format_key_binding_cmd_alt t hne hk
  · intro t hne hk
    have hrender : Chord.render ⟨some .alt, 0, t⟩ = "Alt+" ++ t := by
      simp [Chord.render, Opener.str, shiftReps]
    have := format_key_binding_aopen 0 t hne hk
    rw [hrender] at this
    rw [this]
    refine String.ext ?_
    simp [String.data_append, shiftLows]

/-- C5 witness: the amended sequential-rewrite theorem applied at `T`. -/
theorem C5_sequential_witness :
    format_key_binding ("Cmd+Alt+" ++ "T") = "C(\"A(\"" ++ "T" ++ "\")" ∧
    format_key_binding ("Alt+" ++ "T") = "A(\"" ++ "T" ++ "\")" :=
  ⟨C5_sequential_amended.1 "T" (by decide) (by decide),
   C5_sequential_amended.2 "T" (by decide) (by decide)⟩

/-- C10: on a chord string whose only modifier prefix is `Shift+` (it
contains no `Cmd+`, `Ctrl+` or `Alt+`, and its `Shift+`-rewritten text does
not itself start with a control or alt opener), the formatter opens no
control or alt token: it rewrites `Shift+` to `shift-` and wraps the whole
result, lower-cased, as a plain key token. -/
theorem C10_shift_only (s : String)
    (h1 : occursInC "Cmd+".data s.data = false)
    (h2 : occursInC "Ctrl+".data s.data = false)
    (h3 : occursInC "Alt+".data s.data = false)
    (h4 : ("C(\"".data).isPrefixOf (pyReplaceC "Shift+".data "shift-".data s.data) = false)
    (h5 : ("A(\"".data).isPrefixOf (pyReplaceC "Shift+".data "shift-".data s.data) = false) :
    format_key_binding s = "K(\"" ++ lowerStr (pyReplace s "Shift+" "shift-") ++ "\")" := by
  simp only [format_key_binding, pyReplace]
  rw [show pyReplaceC "Cmd+".data "C(\"".data s.data = s.data from
      pyReplaceC_no_occur _ h1,
    show pyReplaceC "Ctrl+".data "C(\"".data s.data = s.data from
      pyReplaceC_no_occur _ h2,
    show pyReplaceC "Alt+".data "A(\"".data s.data = s.data from
      pyReplaceC_no_occur _ h3]
  rw [show pyStartsWith ⟨pyReplaceC "Shift+".data "shift-".data s.data⟩ "C(\"" = false from h4,
    show pyStartsWith ⟨pyReplaceC "Shift+".data "shift-".data s.data⟩ "A(\"" = false from h5]
  simp

/-- C10 witness: `Shift+F` formats to the plain lower-cased token
`K("shift-f")`. -/
theorem C10_shift_only_witness :
    format_key_binding "Shift+F" = "K(\"shift-f\")" :=
  (C10_shift_only "Shift+F" (by decide) (by decide) (by decide) (by decide)
    (by decide)).trans (by rfl)

/-- C8: on the empty shortcuts mapping the global-shortcut generator
returns exactly the placeholder comment, which is neither the empty string
nor a keymap table; and a bundle with no `keybindings` key produces a
document containing that placeholder (the absent mapping defaults to the
empty one). -/
theorem C8_empty_global_shortcuts :
    generate_global_shortcuts [] = "# No global shortcuts configured" ∧
    "# No global shortcuts configured" ≠ "" ∧
    (∀ (generation_time : String) (opts : Options) (custom_config : String),
      opts.keybindings = none →
      containsSubstr (generate_config generation_time opts custom_config)
        "# No global shortcuts configured") := by
  refine ⟨rfl, by decide, ?_⟩
  intro gt opts custom hkb
  refine ⟨tplHead ++ gt ++ tplAfterTime ++ generate_base_config opts ++ tplSep
      ++ generate_mac_style_config false ++ tplSep
      ++ generate_application_configs [] ++ tplSep,
    tplSep ++ (if custom = "" then "# No custom configuration" else custom) ++ tplTail, ?_⟩
  simp only [generate_config, hkb]
  refine String.ext ?_
  simp [String.data_append, generate_global_shortcuts, List.append_assoc]

/-- C8 witness: the document of the bundle with every option absent
contains the placeholder. -/
theorem C8_empty_global_shortcuts_witness :
    containsSubstr (generate_config "2024-06-01T12:00:00" ⟨none, none, none, none⟩ "")
      "# No global shortcuts configured" :=
  C8_empty_global_shortcuts.2.2 "2024-06-01T12:00:00" ⟨none, none, none, none⟩ "" rfl

/-- C6 counterexample: on the bundle with every option absent, the
`logging.level` option is missing and yet the base generator emits the
log-level line (with the default level), refuting that the line is emitted
only when the option is present. -/
theorem C6_base_lines_counterexample :
    (⟨none, none, none, none⟩ : Options).logging_level = none ∧
    generate_base_config ⟨none, none, none, none⟩
      = "# Base configuration\nTOSHY_CONFIG_VERSION = \x271.0\x27\nLOG_LEVEL = \x27INFO\x27" ∧
    containsSubstr (generate_base_config ⟨none, none, none, none⟩) "LOG_LEVEL" := by
  refine ⟨rfl, by rfl, ?_⟩
  exact ⟨"# Base configuration\nTOSHY_CONFIG_VERSION = \x271.0\x27\n",
    " = \x27INFO\x27", by rfl⟩

/-- C6 amended: the base generator always emits the version marker and
always emits the log-level line (with the default level `INFO` when the
option is absent); the process-priority line appears exactly when the
priority option is present and truthy (non-zero), and the restricted-mode
line exactly when the restricted-mode option is present and truthy. -/
theorem C6_base_lines_amended (opts : Options) :
    ("TOSHY_CONFIG_VERSION = \x27" ++ "1.0" ++ "\x27")
        ∈ generate_base_config_lines opts ∧
    ("LOG_LEVEL = \x27" ++ opts.logging_level.getD "INFO" ++ "\x27")
        ∈ generate_base_config_lines opts ∧
    ((∃ l ∈ generate_base_config_lines opts,
        pyStartsWith l "PROCESS_PRIORITY" = true) ↔
      (∃ p : Int, opts.performance_priority = some p ∧ p ≠ 0)) ∧
    (("RESTRICTED_MODE = True" ∈ generate_base_config_lines opts) ↔
      opts.security_restrictedMode = some true) := by
  have hlogstart : pyStartsWith
      ("LOG_LEVEL = \x27" ++ opts.logging_level.getD "INFO" ++ "\x27")
      "PROCESS_PRIORITY" = false := by
    unfold pyStartsWith
    rw [show ("LOG_LEVEL = \x27" ++ opts.logging_level.getD "INFO" ++ "\x27").data
        = 'L' :: ("OG_LEVEL = \x27".data
            ++ ((opts.logging_level.getD "INFO").data ++ "\x27".data))
      from by simp [String.data_append, List.append_assoc] <;> decide]
    rw [show ("PROCESS_PRIORITY" : String).data = 'P' :: "ROCESS_PRIORITY".data
      from by decide]
    exact isPrefixOf_false_of_head_ne _ _ _ _ (by decide)
  have hlogne : ("RESTRICTED_MODE = True" : String)
      ≠ "LOG_LEVEL = \x27" ++ opts.logging_level.getD "INFO" ++ "\x27" := by
    refine ne_of_data_head _ _ 'R' 'L' "ESTRICTED_MODE = True".data
      ("OG_LEVEL = \x27".data
        ++ ((opts.logging_level.getD "INFO").data ++ "\x27".data))
      (by decide) (by simp [String.data_append, List.append_assoc] <;> decide)
      (by decide)
  refine ⟨?_, ?_, ?_, ?_⟩
  · simp [generate_base_config_lines]
  · simp [generate_base_config_lines]
  · constructor
    · rintro ⟨l, hl, hstart⟩
      cases hop : opts.performance_priority with
      | some p =>
        by_cases hp : p = 0
        · exfalso
          simp only [generate_base_config_lines, hop, if_neg (by simp [hp] :
              ¬p ≠ 0), List.append_nil, List.nil_append, List.mem_append,
            List.mem_cons, List.not_mem_nil, or_false] at hl
          rcases hl with (rfl | rfl | rfl) | hmem
          · exact absurd hstart (by decide)
          · exact absurd hstart (by decide)
          · rw [hlogstart] at hstart
            exact absurd hstart (by decide)
          · cases hos : opts.security_restrictedMode with
            | none => simp only [hos] at hmem; simp at hmem
            | some b =>
              cases b with
              | false => simp only [hos] at hmem; simp at hmem
              | true =>
                simp only [hos] at hmem
                simp only [List.mem_singleton] at hmem
                subst hmem
                exact absurd hstart (by decide)
        · exact ⟨p, rfl, hp⟩
      | none =>
        exfalso
        simp only [generate_base_config_lines, hop, List.append_nil,
          List.nil_append, List.mem_append, List.mem_cons, List.not_mem_nil,
          or_false] at hl
        rcases hl with (rfl | rfl | rfl) | hmem
        · exact absurd hstart (by decide)
        · exact absurd hstart (by decide)
        · rw [hlogstart] at hstart
          exact absurd hstart (by decide)
        · cases hos : opts.security_restrictedMode with
          | none => simp only [hos] at hmem; simp at hmem
          | some b =>
            cases b with
            | false => simp only [hos] at hmem; simp at hmem
            | true =>
              simp only [hos] at hmem
              simp only [List.mem_singleton] at hmem
              subst hmem
              exact absurd hstart (by decide)
    · rintro ⟨p, hp, hpne⟩
      refine ⟨"PROCESS_PRIORITY = " ++ toString p, ?_, ?_⟩
      · simp [generate_base_config_lines, hp, hpne]
      · apply pyStartsWith_of_data _ _ (" = ".data ++ (toString p).data)
        simp [String.data_append, List.append_assoc] <;> decide
  · constructor
    · intro hl
      cases hos : opts.security_restrictedMode with
      | some b =>
        cases b with
        | true => rfl
        | false =>
          exfalso
          simp only [generate_base_config_lines, hos, List.append_nil,
            List.mem_append, List.mem_cons, List.not_mem_nil, or_false] at hl
          rcases hl with (h | h | h) | hmem
          · exact absurd h (by decide)
          · exact absurd h (by decide)
          · exact hlogne h
          · cases hop : opts.performance_priority with
            | none => simp only [hop] at hmem; simp at hmem
            | some p =>
              simp only [hop] at hmem
              by_cases hp : p = 0
              · rw [if_neg (by simp [hp] : ¬p ≠ 0)] at hmem
                simp at hmem
              · rw [if_pos hp] at hmem
                simp only [List.mem_singleton] at hmem
                exact ne_of_data_head "RESTRICTED_MODE = True"
                  ("PROCESS_PRIORITY = " ++ toString p) 'R' 'P'
                  "ESTRICTED_MODE = True".data
                  ("ROCESS_PRIORITY = ".data ++ (toString p).data)
                  (by decide)
                  (by simp [String.data_append, List.append_assoc] <;> decide)
                  (by decide) hmem
      | none =>
        exfalso
        simp only [generate_base_config_lines, hos, List.append_nil,
          List.mem_append, List.mem_cons, List.not_mem_nil, or_false] at hl
        rcases hl with (h | h | h) | hmem
        · exact absurd h (by decide)
        · exact absurd h (by decide)
        · exact hlogne h
        · cases hop : opts.performance_priority with
          | none => simp only [hop] at hmem; simp at hmem
          | some p =>
            simp only [hop] at hmem
            by_cases hp : p = 0
            · rw [if_neg (by simp [hp] : ¬p ≠ 0)] at hmem
              simp at hmem
            · rw [if_pos hp] at hmem
              simp only [List.mem_singleton] at hmem
              exact ne_of_data_head "RESTRICTED_MODE = True"
                ("PROCESS_PRIORITY = " ++ toString p) 'R' 'P'
                "ESTRICTED_MODE = True".data
                ("ROCESS_PRIORITY = ".data ++ (toString p).data)
                (by decide)
                (by simp [String.data_append, List.append_assoc] <;> decide)
                (by decide) hmem
    · intro hos
      simp [generate_base_config_lines, hos]

/-- C7: the line list generated for an application mapping contains exactly
one table-opener line `keymap("<name>", {` per application, in the
iteration order of the mapping (the filter of opener lines equals the map
of openers over the mapping), and for a non-empty mapping the fragment is
the newline join of that line list. -/
theorem C7_application_openers (applications : List (String × List (String × String))) :
    (generate_application_configs_lines applications).filter
        (fun l => pyStartsWith l "keymap(\"")
      = applications.map (fun p => "keymap(\"" ++ p.1 ++ "\", \x7b") ∧
    (applications.isEmpty = false →
      generate_application_configs applications
        = pyJoin "\n" (generate_application_configs_lines applications)) := by
  constructor
  · unfold generate_application_configs_lines
    rw [List.filter_cons_of_neg (by simp [not_opener_header])]
    induction applications with
    | nil => simp
    | cons app apps ih =>
      rw [List.flatMap_cons, List.map_cons, List.filter_append, ih]
      congr 1
      unfold appBlockLines
      simp only [List.cons_append, List.nil_append]
      rw [List.filter_cons_of_neg (by simp [not_opener_comment]),
        List.filter_cons_of_pos (by simp [opener_is_opener]),
        List.filter_append,
        List.filter_cons_of_neg (by simp [not_opener_close])]
      rw [show (app.2.map fun b => bindingLine b.1 b.2).filter
            (fun l => pyStartsWith l "keymap(\"") = [] from ?_]
      · simp
      · rw [List.filter_eq_nil_iff]
        intro x hx
        rcases List.mem_map.mp hx with ⟨b, hb, rfl⟩
        simp [not_opener_binding]
  · intro hne
    unfold generate_application_configs
    rw [if_neg (by simp [hne])]

/-- C7 witness: openers for a two-application mapping, in order. -/
theorem C7_application_openers_witness :
    (generate_application_configs_lines
        [("Firefox", [("Cmd+T", "Ctrl+T")]), ("VSCode", [])]).filter
        (fun l => pyStartsWith l "keymap(\"")
      = ["keymap(\"Firefox\", \x7b", "keymap(\"VSCode\", \x7b"] ∧
    generate_application_configs [("Firefox", [("Cmd+T", "Ctrl+T")]), ("VSCode", [])]
      = pyJoin "\n" (generate_application_configs_lines
          [("Firefox", [("Cmd+T", "Ctrl+T")]), ("VSCode", [])]) :=
  ⟨((C7_application_openers _).1).trans (by rfl),
   (C7_application_openers _).2 (by rfl)⟩

/-- C2: the validator returns `True` (with no printed output) exactly when
the downstream compile succeeds; a `SyntaxError` yields `False` plus one
printed diagnostic containing the line number and the message; any other
exception is not converted to `False` but propagates uncaught, reaching the
CLI driver as an unstructured error. -/
theorem C2_validator_semantics (compileFn : String → CompileOutcome) (doc : String) :
    (validate_config compileFn doc = .ok (true, []) ↔ compileFn doc = .ok) ∧
    (∀ (n : Nat) (m : String), compileFn doc = .syntaxError n m →
      validate_config compileFn doc
          = .ok (false, ["Configuration validation failed: " ++ syntaxErrorStr n m]) ∧
        containsSubstr ("Configuration validation failed: " ++ syntaxErrorStr n m)
          (toString n) ∧
        containsSubstr ("Configuration validation failed: " ++ syntaxErrorStr n m) m) ∧
    (∀ e : String, compileFn doc = .otherError e →
      validate_config compileFn doc = .error e) ∧
    (∀ (fileExists : String → Bool) (readFile : String → String)
        (jsonParse : String → Option Options) (writeOk : Bool)
        (generation_time : String) (args : Args) (opts : Options) (e : String),
      args.validate = true → args.custom_config = none →
      fileExists args.options = true →
      jsonParse (readFile args.options) = some opts →
      compileFn (generate_config generation_time opts "") = .otherError e →
      mainRun compileFn fileExists readFile jsonParse writeOk generation_time args
        = .error e) := by
  refine ⟨?_, ?_, ?_, ?_⟩
  · constructor
    · intro h
      cases hc : compileFn doc with
      | ok => rfl
      | syntaxError n m =>
        rw [validate_config, hc] at h
        simp at h
      | otherError m =>
        rw [validate_config, hc] at h
        simp at h
    · intro h
      rw [validate_config, h]
  · intro n m h
    refine ⟨by rw [validate_config, h], ?_, ?_⟩
    · refine ⟨"Configuration validation failed: " ++ m ++ " (<generated_config>, line ",
        ")", ?_⟩
      refine String.ext ?_
      simp [syntaxErrorStr, String.data_append, List.append_assoc]
    · refine ⟨"Configuration validation failed: ",
        " (<generated_config>, line " ++ toString n ++ ")", ?_⟩
      refine String.ext ?_
      simp [syntaxErrorStr, String.data_append, List.append_assoc]
  · intro e h
    rw [validate_config, h]
  · intro fe rf jp wo gt args opts e hv hcc hfe hjp hcomp
    unfold mainRun
    rw [if_neg (show ¬(fe args.options = false) from by simp [hfe])]
    simp only [hjp, hcc, hv, if_true]
    rw [show validate_config compileFn (generate_config gt opts "") = .error e from by
      rw [validate_config, hcomp]]

/-- C2 witness: the validator semantics applied at a compile stub raising a
non-syntax exception: the exception propagates. -/
theorem C2_validator_semantics_witness :
    validate_config (fun _ => CompileOutcome.otherError "boom") "X = 1"
      = .error "boom" :=
  (C2_validator_semantics (fun _ => CompileOutcome.otherError "boom") "X = 1").2.2.1
    "boom" rfl

/-- C9: when the `--custom-config` path does not exist, the driver silently
proceeds with an empty custom text: with a loadable options file and a
successful write it exits 0, prints only the generated-file message, and
the written document carries the `# No custom configuration` placeholder in
the custom-code slot. -/
theorem C9_missing_custom_config (compileFn : String → CompileOutcome)
    (fileExists : String → Bool) (readFile : String → String)
    (jsonParse : String → Option Options) (generation_time : String)
    (args : Args) (opts : Options) (p : String)
    (hcc : args.custom_config = some p)
    (hmiss : fileExists p = false)
    (hopts : fileExists args.options = true)
    (hparse : jsonParse (readFile args.options) = some opts)
    (hval : args.validate = false) :
    mainRun compileFn fileExists readFile jsonParse true generation_time args
        = .ok (0, ["Configuration generated: " ++ args.output],
               some (generate_config generation_time opts "")) ∧
    containsSubstr (generate_config generation_time opts "")
      "# No custom configuration" := by
  constructor
  · unfold mainRun
    rw [if_neg (show ¬(fileExists args.options = false) from by simp [hopts])]
    simp only [hparse, hcc]
    rw [if_neg (show ¬(p ≠ "" ∧ fileExists p) from by simp [hmiss])]
    simp [hval]
  · refine ⟨tplHead ++ generation_time ++ tplAfterTime ++ generate_base_config opts
      ++ tplSep ++ generate_mac_style_config (match opts.keybindings with
          | some kb => kb.macStyle | none => false) ++ tplSep
      ++ generate_application_configs (match opts.keybindings with
          | some kb => kb.applications | none => []) ++ tplSep
      ++ generate_global_shortcuts (match opts.keybindings with
          | some kb => kb.globalShortcuts | none => []) ++ tplSep,
      tplTail, ?_⟩
    simp only [generate_config, if_true]

/-- C9 witness: the driver run with a missing custom-config file exits 0
and writes the document with the placeholder. -/
theorem C9_missing_custom_config_witness :
    mainRun (fun _ => CompileOutcome.ok) (fun s => s == "options.json")
        (fun _ => "x") (fun _ => some ⟨none, none, none, none⟩) true
        "2024-06-01T12:00:00" ⟨"options.json", "out.py", some "custom.py", false⟩
        = .ok (0, ["Configuration generated: " ++ "out.py"],
               some (generate_config "2024-06-01T12:00:00" ⟨none, none, none, none⟩ "")) ∧
    containsSubstr (generate_config "2024-06-01T12:00:00" ⟨none, none, none, none⟩ "")
      "# No custom configuration" :=
  C9_missing_custom_config (fun _ => CompileOutcome.ok) (fun s => s == "options.json")
    (fun _ => "x") (fun _ => some ⟨none, none, none, none⟩) "2024-06-01T12:00:00"
    ⟨"options.json", "out.py", some "custom.py", false⟩ ⟨none, none, none, none⟩
    "custom.py" rfl (by decide) (by decide) rfl rfl

/-- C1 counterexample: the bundle binding `Cmd+Alt+T` (built from the fixed
modifier prefixes and an alphanumeric key, with no quote or newline
characters) to `Ctrl+T` generates a document the validator rejects: the
round trip returns `False`, not `True`. -/
theorem C1_round_trip_counterexample :
    ("Cmd+Alt+T" : String) = "Cmd+" ++ "Alt+" ++ "T" ∧
    validate_config pyCompile (generate_config "2024-06-01T12:00:00"
        ⟨none, none, none,
         some ⟨false, [("Firefox", [("Cmd+Alt+T", "Ctrl+T")])], []⟩⟩ "")
      = .ok (false,
          ["Configuration validation failed: unterminated string literal (<generated_config>, line 0)"]) := by
  exact ⟨rfl, by rfl⟩

/-- C1 amended: the round trip
`validate_config(generate_config(options))` returns `True` for every
options bundle whose application names and chord keys and values are
ASCII-alphanumeric with the fixed modifier prefixes in canonical order (at
most one of `Cmd+`/`Ctrl+`/`Alt+`, first, then `Shift+` repetitions, then
the key) and whose interpolated scalar values (timestamp, log level,
rendered priority) contain no quote, newline or backslash characters. -/
theorem C1_round_trip (generation_time : String) (opts : Options)
    (hT : StrPlainAll generation_time) (hW : WfRoundtripOptions opts) :
    validate_config pyCompile (generate_config generation_time opts "")
      = .ok (true, []) := by
  unfold validate_config pyCompile
  rw [generate_config_scan_ok generation_time opts hT hW]
  rfl

/-- C1 witness: the round trip passes on a bundle exercising every section
(Mac style on, one application, one global shortcut, level, priority and
restricted mode set). -/
theorem C1_round_trip_witness :
    validate_config pyCompile (generate_config "2024-06-01T12:00:00"
        ⟨some "DEBUG", some (-5), some true,
         some ⟨true, [("Firefox", [("Cmd+T", "Ctrl+T")])],
               [("Cmd+Space", "Alt+F2")]⟩⟩ "")
      = .ok (true, []) := by
  apply C1_round_trip
  · unfold StrPlainAll
    decide
  · refine ⟨?_, ?_, ?_⟩
    · intro lvl hl
      cases hl
      unfold StrPlainAll
      decide
    · intro p hp
      cases hp
      unfold NormalKeeps
      decide
    · intro kb hkb
      cases hkb
      constructor
      · intro a ha
        rw [List.mem_singleton] at ha
        subst ha
        refine ⟨⟨by decide, by decide⟩, ?_⟩
        intro b hb
        rw [List.mem_singleton] at hb
        subst hb
        exact ⟨⟨⟨some .cmd, 0, "T"⟩, ⟨by decide, by decide⟩, by rfl⟩,
               ⟨⟨some .ctrl, 0, "T"⟩, ⟨by decide, by decide⟩, by rfl⟩⟩
      · intro b hb
        rw [List.mem_singleton] at hb
        subst hb
        exact ⟨⟨⟨some .cmd, 0, "Space"⟩, ⟨by decide, by decide⟩, by rfl⟩,
               ⟨⟨some .alt, 0, "F2"⟩, ⟨by decide, by decide⟩, by rfl⟩⟩

/-- C3 counterexample: a bundle without a `keybindings` key whose logging
level contains a quote character generates a document the validator
rejects, refuting the unconditional validator half of the claim. -/
theorem C3_marker_counterexample :
    (⟨some "x\x27y", none, none, none⟩ : Options).keybindings = none ∧
    validate_config pyCompile (generate_config "2024-06-01T12:00:00"
        ⟨some "x\x27y", none, none, none⟩ "")
      = .ok (false,
          ["Configuration validation failed: unterminated string literal (<generated_config>, line 0)"]) := by
  exact ⟨rfl, by rfl⟩

/-- C3 amended: every bundle without a `keybindings` key generates a
document containing the literal marker `Mac-style keybindings disabled`
(unconditionally), and the validator passes that document provided the
interpolated scalar values (timestamp, log level, rendered priority)
contain no quote, newline or backslash characters. -/
theorem C3_marker_amended (generation_time : String) (opts : Options)
    (hkb : opts.keybindings = none) :
    containsSubstr (generate_config generation_time opts "")
        "Mac-style keybindings disabled" ∧
    (StrPlainAll generation_time →
      (∀ lvl, opts.logging_level = some lvl → StrPlainAll lvl) →
      (∀ p : Int, opts.performance_priority = some p → NormalKeeps (toString p)) →
      validate_config pyCompile (generate_config generation_time opts "")
        = .ok (true, [])) := by
  constructor
  · refine ⟨tplHead ++ generation_time ++ tplAfterTime ++ generate_base_config opts
        ++ tplSep ++ "# ",
      tplSep ++ generate_application_configs [] ++ tplSep
        ++ generate_global_shortcuts [] ++ tplSep
        ++ "# No custom configuration" ++ tplTail, ?_⟩
    simp only [generate_config, hkb, if_true]
    refine String.ext ?_
    simp [String.data_append, generate_mac_style_config, macStyleDisabledStr,
      List.append_assoc]
  · intro hT hlvl hprio
    have hW : WfRoundtripOptions opts := by
      refine ⟨hlvl, hprio, ?_⟩
      intro kb hkb2
      rw [hkb] at hkb2
      cases hkb2
    unfold validate_config pyCompile
    rw [generate_config_scan_ok generation_time opts hT hW]
    rfl

/-- C3 witness: the amended claim at a bundle without keybindings but with
level, priority and restricted mode set, with the validator hypotheses
discharged. -/
theorem C3_marker_amended_witness :
    containsSubstr (generate_config "2024-06-01T12:00:00"
        ⟨some "DEBUG", some 2, some true, none⟩ "")
        "Mac-style keybindings disabled" ∧
    validate_config pyCompile (generate_config "2024-06-01T12:00:00"
        ⟨some "DEBUG", some 2, some true, none⟩ "")
      = .ok (true, []) := by
  have h := C3_marker_amended "2024-06-01T12:00:00"
    ⟨some "DEBUG", some 2, some true, none⟩ rfl
  refine ⟨h.1, h.2 ?_ ?_ ?_⟩
  · unfold StrPlainAll
    decide
  · intro lvl hl
    cases hl
    unfold StrPlainAll
    decide
  · intro p hp
    cases hp
    unfold NormalKeeps
    decide
